import Mathlib

set_option synthInstance.maxSize 2048

/-!
Verification development for the artifact execution, caching and KPI engine
of the Pure_AUTOGEN_Dashboard repository.  Python sources are shallowly
embedded as executable Lean definitions; strings are modelled as `List Char`
(ASCII-oriented), pandas dataframes as association lists of typed columns,
machine-level hashing as an explicit SHA-256 over `Nat` bytes.
-/

namespace Dashboard

/-! ## Character and string utilities (modelling Python `str` operations) -/

/-- ASCII whitespace as recognised by Python `str.strip()` and the regex
class `\s` (space, tab, newline, carriage return, vertical tab, form feed). -/
def isWS (c : Char) : Bool :=
  c == ' ' || c == '\t' || c == '\n' || c == '\r' || c == '\x0b' || c == '\x0c'

/-- ASCII lower-casing on code points, modelling case-insensitive regex
matching. -/
def toLowerN (n : Nat) : Nat :=
  if 65 ≤ n && n ≤ 90 then n + 32 else n

/-- ASCII word character on code points: the regex class `\w` used by `\b`. -/
def isWordCharN (n : Nat) : Bool :=
  (97 ≤ n && n ≤ 122) || (65 ≤ n && n ≤ 90) || (48 ≤ n && n ≤ 57) || n == 95

/-- ASCII word character, modelling the regex class `\w` used by `\b`. -/
def isWordChar (c : Char) : Bool :=
  isWordCharN c.toNat

/-- Case-insensitive character comparison (ASCII). -/
def charEqCI (a b : Char) : Bool :=
  toLowerN a.toNat == toLowerN b.toNat

/-- Drop characters satisfying `p` from the end of a list. -/
def rdropWhile (p : Char → Bool) (l : List Char) : List Char :=
  (l.reverse.dropWhile p).reverse

/-- Python `s.strip()`: remove whitespace from both ends. -/
def stripWS (l : List Char) : List Char :=
  rdropWhile isWS (l.dropWhile isWS)

/-- Python `s.strip(";")`: remove semicolons from both ends. -/
def stripSemi (l : List Char) : List Char :=
  rdropWhile (fun c => c == ';') (l.dropWhile (fun c => c == ';'))

/-- Python `s.rstrip(";")`: remove semicolons from the right end only. -/
def rstripSemi (l : List Char) : List Char :=
  rdropWhile (fun c => c == ';') l

/-- `sql.strip().strip(";")` as performed by `is_select_only`. -/
def pythonStrip (l : List Char) : List Char :=
  stripSemi (stripWS l)

/-- Case-insensitive prefix test: the pattern `kw` matches at the very
start of `s` (no boundary requirement yet). -/
def isPrefixCI : List Char → List Char → Bool
  | [], _ => true
  | _ :: _, [] => false
  | k :: ks, c :: cs => charEqCI k c && isPrefixCI ks cs

/-- Word boundary after the matched keyword: end of string or a non-word
character follows. -/
def boundaryAfter : List Char → Bool
  | [] => true
  | c :: _ => !isWordChar c

/-- `KW\b` matches at the start of `s` (case-insensitive). -/
def startsWithWordCI (kw : List Char) (s : List Char) : Bool :=
  isPrefixCI kw s && boundaryAfter (s.drop kw.length)

/-- Search for `\bKW\b` anywhere in the text; the boolean argument records
whether a word boundary precedes the current position. -/
def containsWordAux (kw : List Char) : Bool → List Char → Bool
  | _, [] => false
  | pb, c :: cs =>
      (pb && startsWithWordCI kw (c :: cs)) || containsWordAux kw (!isWordChar c) cs

/-- `re.search(r"\bKW\b", s, re.IGNORECASE)` for a keyword made of word
characters. -/
def containsWordCI (kw : List Char) (s : List Char) : Bool :=
  containsWordAux kw true s

/-! ## `safety.py` -/

/-- The fixed forbidden-keyword list of `safety.FORBIDDEN`. -/
def FORBIDDEN : List (List Char) :=
  ["INSERT", "UPDATE", "DELETE", "MERGE", "DROP", "ALTER",
   "TRUNCATE", "CREATE", "GRANT", "REVOKE", "EXEC", "EXECUTE"].map String.toList

/-- After `\s*`, `SELECT\b` must match (tail of the WITH-prefix pattern). -/
def skipWSSelect : List Char → Bool
  | [] => false
  | c :: cs => if isWS c then skipWSSelect cs else startsWithWordCI "SELECT".toList (c :: cs)

/-- Search for `\)\s*SELECT\b` starting at any position of the list,
modelling the reluctant `[\s\S]+?` which may absorb arbitrary characters. -/
def parenSearch : List Char → Bool
  | [] => false
  | c :: cs => (c == ')' && skipWSSelect cs) || parenSearch cs

/-- After the literal `WITH`: `\s+[\s\S]+?\)\s*SELECT\b`.  A match exists
iff the first character is whitespace (further whitespace can be absorbed
by `[\s\S]+?`), at least one character separates it from a closing paren,
and that paren is followed by `\s*SELECT\b`. -/
def withTail : List Char → Bool
  | [] => false
  | c :: cs =>
      isWS c &&
      (match cs with
       | [] => false
       | _ :: cs2 => parenSearch cs2)

/-- `re.match(r"^(WITH\s+[\s\S]+?\)\s*)?SELECT\b", s, re.IGNORECASE)`:
either `SELECT\b` matches immediately, or a WITH-prefix does. -/
def selStart (s : List Char) : Bool :=
  startsWithWordCI "SELECT".toList s ||
  (isPrefixCI "WITH".toList s && withTail (s.drop 4))

/-- `safety.is_select_only`. -/
def is_select_only (sql : List Char) : Bool :=
  let s := pythonStrip sql
  selStart s && !(FORBIDDEN.any (fun kw => containsWordCI kw s))

/-- `safety.enforce_select_only`: raises `ValueError` on a rejected query,
modelled as `Except`. -/
def enforce_select_only (sql : List Char) : Except String Unit :=
  if is_select_only sql then .ok ()
  else .error "BLOCKED non-SELECT SQL. Only read-only SELECT queries are allowed."

/-! ## Data model: cells, columns, dataframes (modelling pandas objects) -/

/-- A cell of a result set: a numeric value, a raw string, or a missing
value (`None`/`NaN`). -/
inductive Cell where
  | num (q : ℚ)
  | str (s : String)
  | null
deriving DecidableEq, Repr

/-- The pandas dtype of a column, as far as the code distinguishes them:
datetime64, a numeric dtype, `object`, or anything else. -/
inductive Dtype where
  | datetime
  | numeric
  | obj
  | other
deriving DecidableEq, Repr

structure Column where
  dtype : Dtype
  cells : List Cell
deriving DecidableEq, Repr

/-- A dataframe: ordered association list of named columns, all of the same
length. -/
abbrev Df := List (String × Column)

/-- `df.columns`. -/
def dfColumns (df : Df) : List String := df.map (·.1)

/-- `df[c]` (first column of that name; faithful when names are unique). -/
def dfGet (df : Df) (c : String) : Option Column := df.lookup c

/-- `df.shape[0]`: the common length of the columns. -/
def dfRows (df : Df) : Nat :=
  match df with
  | [] => 0
  | (_, col) :: _ => col.cells.length

/-- `df.shape[1]`. -/
def dfCols (df : Df) : Nat := df.length

/-- A Python scalar KPI value: int, float, string, or `None`. -/
inductive PyVal where
  | vInt (n : ℤ)
  | vFloat (q : ℚ)
  | vStr (s : String)
  | vNone
deriving DecidableEq, Repr

/-! ## `kpi_engine.py` -/

/-- `kpi_engine.KPIComputed`. -/
structure KPIComputed where
  name : String
  value : PyVal
  note : Option String
deriving DecidableEq, Repr

/-- A KPI spec from the analysis plan: `{name, description, formula_hint}`
(missing `name`/`description` default to the empty string upstream). -/
structure PlanKPI where
  name : String
  description : String
  formula_hint : Option String
deriving DecidableEq, Repr

/-- The analysis plan as consumed by the engine: `plan.get("kpis", []) or []`. -/
structure Plan where
  kpis : List PlanKPI
deriving DecidableEq, Repr

/-- Python `s.strip()` on `String`. -/
def strStrip (s : String) : String := String.mk (stripWS s.toList)

/-- ASCII `s.lower()`. -/
def lowerStr (s : String) : String :=
  String.mk (s.toList.map (fun c => Char.ofNat (toLowerN c.toNat)))

/-- Lower-case alphanumeric, the class kept by `_norm`. -/
def isLowerAlnum (c : Char) : Bool :=
  ('a' ≤ c && c ≤ 'z') || ('0' ≤ c && c ≤ '9')

/-- Collapse consecutive spaces into one. -/
def collapseSpaces : List Char → List Char
  | [] => []
  | [c] => [c]
  | a :: b :: rest =>
      if a == ' ' && b == ' ' then collapseSpaces (b :: rest)
      else a :: collapseSpaces (b :: rest)

/-- `kpi_engine._norm`: lower-case, replace runs of non-alphanumeric
characters by a single space, strip. -/
def _norm (s : String) : String :=
  String.mk (stripWS (collapseSpaces
    ((lowerStr s).toList.map (fun c => if isLowerAlnum c then c else ' '))))

/-- Python substring test `pat in s`. -/
def containsSub (pat : List Char) : List Char → Bool
  | [] => pat.isEmpty
  | c :: cs => pat.isPrefixOf (c :: cs) || containsSub pat cs

/-- Python substring test on `String`. -/
def strContains (s pat : String) : Bool := containsSub pat.toList s.toList

/-- Parse a decimal literal, modelling `pd.to_numeric` coercion of a string
cell (optional sign, decimal digits, optional fractional part; scientific
notation is outside the model). -/
def digitsToNat (ds : List Char) : Nat :=
  ds.foldl (fun acc c => acc * 10 + (c.toNat - 48)) 0

def allDigits (l : List Char) : Bool :=
  l.all (fun c => '0' ≤ c && c ≤ '9')

def parseDecimal (s : String) : Option ℚ :=
  let t := stripWS s.toList
  let signBody : ℚ × List Char :=
    match t with
    | '-' :: rest => (-1, rest)
    | '+' :: rest => (1, rest)
    | _ => (1, t)
  match signBody.2.splitOn '.' with
  | [ip] =>
      if ip ≠ [] && allDigits ip then some (signBody.1 * (digitsToNat ip : ℚ))
      else none
  | [ip, fp] =>
      if (ip ++ fp) ≠ [] && allDigits ip && allDigits fp then
        some (signBody.1 * ((digitsToNat ip : ℚ) + (digitsToNat fp : ℚ) / (10 : ℚ) ^ fp.length))
      else none
  | _ => none

/-- `pd.to_numeric(cell, errors="coerce")` at cell level: numbers pass
through, missing values and non-coercible strings become `NaN` (`none`). -/
def toNumericCell : Cell → Option ℚ
  | .num q => some q
  | .null => none
  | .str s => parseDecimal s

/-- The numeric values of a column after coercion, non-coercible and
missing values dropped (`pd.to_numeric(df[col], errors="coerce").dropna()`). -/
def numericValues (df : Df) (col : String) : List ℚ :=
  match dfGet df col with
  | none => []
  | some c => c.cells.filterMap toNumericCell

/-- Insertion sort (ascending) for rationals. -/
def insertRat (x : ℚ) : List ℚ → List ℚ
  | [] => [x]
  | y :: ys => if x ≤ y then x :: y :: ys else y :: insertRat x ys

def sortRats : List ℚ → List ℚ
  | [] => []
  | x :: xs => insertRat x (sortRats xs)

/-- `Series.quantile(0.95)` with linear interpolation between order
statistics (NaN already dropped); 0 on an empty list. -/
def quantile95 (l : List ℚ) : ℚ :=
  let s := sortRats l
  let n := s.length
  if n = 0 then 0
  else
    let pos : ℚ := (19 : ℚ) / 20 * ((n : ℚ) - 1)
    let lo : ℕ := (Rat.floor pos).toNat
    let frac : ℚ := pos - (Rat.floor pos : ℚ)
    let vlo := s.getD lo 0
    let vhi := s.getD (lo + 1) vlo
    vlo + frac * (vhi - vlo)

/-- The five numeric aggregates accepted by `_safe_agg`. -/
inductive Agg where
  | sum
  | avg
  | min
  | max
  | p95
deriving DecidableEq, Repr

def listMin : List ℚ → ℚ
  | [] => 0
  | x :: xs => xs.foldl Min.min x

def listMax : List ℚ → ℚ
  | [] => 0
  | x :: xs => xs.foldl Max.max x

def aggValue (a : Agg) (vals : List ℚ) : ℚ :=
  match a with
  | .sum => vals.sum
  | .avg => vals.sum / (vals.length : ℚ)
  | .min => listMin vals
  | .max => listMax vals
  | .p95 => quantile95 vals

/-- `kpi_engine._safe_agg`: `None` when the column is absent or no values
survive numeric coercion, otherwise the aggregate of the surviving values. -/
def _safe_agg (df : Df) (col : String) (agg : Agg) : Option ℚ :=
  if (dfGet df col).isNone then none
  else
    let vals := numericValues df col
    if vals.isEmpty then none
    else some (aggValue agg vals)

/-- `kpi_engine._safe_count_distinct`: distinct non-missing values
(`Series.nunique(dropna=True)`), `None` when the column is absent. -/
def _safe_count_distinct (df : Df) (col : String) : Option ℤ :=
  match dfGet df col with
  | none => none
  | some c => some (((c.cells.filter (· ≠ Cell.null)).dedup).length : ℤ)

/-- `kpi_engine._safe_count_rows`. -/
def _safe_count_rows (df : Df) : ℤ := (dfRows df : ℤ)

/-- Score one column for `_pick_best_column`: +3 per keyword occurring in
the normalised name, +2 if the normalised name equals some keyword, +1 for
a numeric dtype when numeric preference is requested. -/
def scoreColumn (name : String) (col : Column) (keywords : List String)
    (preferNumeric : Bool) : Nat :=
  let cn := _norm name
  3 * keywords.countP (fun kw => strContains cn kw) +
    (if keywords.any (fun kw => cn == kw) then 2 else 0) +
    (if preferNumeric && col.dtype == Dtype.numeric then 1 else 0)

/-- `kpi_engine._pick_best_column`: highest score wins, ties broken by
first-encountered order (stable descending sort then head), only a strictly
positive score selects. -/
def _pick_best_column (df : Df) (keywords : List String) (preferNumeric : Bool) :
    Option String :=
  let best := df.foldl
    (fun acc p =>
      let sc := scoreColumn p.1 p.2 keywords preferNumeric
      match acc with
      | none => some (sc, p.1)
      | some q => if sc > q.1 then some (sc, p.1) else some q)
    none
  match best with
  | some q => if q.1 > 0 then some q.2 else none
  | none => none

/-- The token produced by the first alternative of the formula-hint regex. -/
inductive AggTok where
  | agg (a : Agg)
  | cdist
deriving DecidableEq, Repr

def aggTokStr : AggTok → String
  | .agg .sum => "sum"
  | .agg .avg => "avg"
  | .agg .min => "min"
  | .agg .max => "max"
  | .agg .p95 => "p95"
  | .cdist => "count_distinct"

/-- All alternatives of the first regex branch, in pattern order. -/
def aggToks : List AggTok :=
  [.agg .sum, .agg .avg, .agg .min, .agg .max, .agg .p95, .cdist]

/-- Case-insensitive list equality. -/
def listEqCI (a b : List Char) : Bool :=
  a.length == b.length && isPrefixCI a b

/-- Match `^(sum|avg|min|max|p95|count_distinct)\(([^)]+)\)$` against the
stripped hint, returning the lower-cased aggregate token and the raw
capture of group 2. -/
def matchAggForm (h : List Char) : Option (AggTok × List Char) :=
  aggToks.findSome? (fun tok =>
    let kw := (aggTokStr tok).toList
    if isPrefixCI kw h then
      match h.drop kw.length with
      | '(' :: rest =>
          if rest.getLast? == some ')' then
            let inner := rest.dropLast
            if !inner.isEmpty && inner.all (· ≠ ')') then some (tok, inner)
            else none
          else none
      | _ => none
    else none)

/-- Strip whitespace, then double quotes, then single quotes, from both
ends: `col.strip().strip('"').strip("'")`. -/
def stripColName (l : List Char) : List Char :=
  let l1 := rdropWhile (fun c => c == '"') ((stripWS l).dropWhile (fun c => c == '"'))
  rdropWhile (fun c => c == '\'') (l1.dropWhile (fun c => c == '\''))

/-- The formula-hint path of `compute_kpis_from_plan` for one KPI spec:
`some` when the hint matches the mini-grammar and produces a value,
`none` (NoMatch) when it must fall through to heuristics. -/
def hintResult (df : Df) (kName : String) (hint : Option String) :
    Option KPIComputed :=
  match hint with
  | none => none
  | some hs =>
      let h := strStrip hs
      if h == "" then none
      else if listEqCI h.toList "count_rows()".toList then
        some ⟨if kName == "" then "count_rows" else kName,
              .vInt (_safe_count_rows df), some "from formula_hint"⟩
      else
        match matchAggForm h.toList with
        | none => none
        | some (tok, rawCol) =>
            let col := String.mk (stripColName rawCol)
            match tok with
            | .cdist =>
                match _safe_count_distinct df col with
                | some v => some ⟨kName, .vInt v, some ("from formula_hint: " ++ h)⟩
                | none => none
            | .agg a =>
                match _safe_agg df col a with
                | some v => some ⟨kName, .vFloat v, some ("from formula_hint: " ++ h)⟩
                | none => none

/-- The heuristic path of `compute_kpis_from_plan` for one KPI spec
(rules applied in order, terminal row-count fallback). -/
def heuristicResult (df : Df) (kName kDesc : String) : KPIComputed :=
  let text := _norm (kName ++ " " ++ kDesc)
  if ["count", "total", "number of", "volume"].any (fun w => strContains text w) then
    match _pick_best_column df
        ["customer", "user", "member", "account", "client", "cust", "userid", "customerid"]
        false with
    | some idCol =>
        ⟨kName,
         (match _safe_count_distinct df idCol with
          | some v => .vInt v
          | none => .vNone),
         some ("heuristic distinct on " ++ idCol)⟩
    | none => ⟨kName, .vInt (_safe_count_rows df), some "heuristic row count"⟩
  else if strContains text "active" then
    match _pick_best_column df
        ["customer", "user", "member", "account", "client", "cust", "customerid"]
        false with
    | some idCol =>
        ⟨kName,
         (match _safe_count_distinct df idCol with
          | some v => .vInt v
          | none => .vNone),
         some ("heuristic active distinct on " ++ idCol)⟩
    | none => ⟨kName, .vInt (_safe_count_rows df), some "heuristic active rows"⟩
  else
    let moneyHit :=
      ["revenue", "amount", "spend", "sales", "earning", "earn", "redeem",
       "redemption", "points"].any (fun w => strContains text w)
    let moneyPick :=
      if moneyHit then
        match _pick_best_column df
            ["amount", "amt", "revenue", "sales", "spend", "earning", "earned",
             "redeem", "redemption", "points", "point", "value"]
            true with
        | some col =>
            match _safe_agg df col .sum with
            | some v => some (⟨kName, .vFloat v, some ("heuristic sum(" ++ col ++ ")")⟩ : KPIComputed)
            | none => none
        | none => none
      else none
    match moneyPick with
    | some r => r
    | none =>
        ⟨if kName == "" then "rows" else kName, .vInt (_safe_count_rows df),
         some "fallback rows"⟩

/-- Evaluate one plan KPI against one dataset: formula hint first, then
heuristics. -/
def evalPlanKpi (df : Df) (k : PlanKPI) : KPIComputed :=
  let kName := strStrip k.name
  let kDesc := strStrip k.description
  match hintResult df kName k.formula_hint with
  | some r => r
  | none => heuristicResult df kName kDesc

/-- Python `dict` assignment `d[k] = v` on an association list: replace the
first binding of `k`, or append a new one. -/
def dictSet {β : Type} (l : List (String × β)) (k : String) (v : β) :
    List (String × β) :=
  match l with
  | [] => [(k, v)]
  | (k', v') :: rest => if k' == k then (k, v) :: rest else (k', v') :: dictSet rest k v

/-- `kpi_engine.compute_kpis_from_plan`: initialise an empty list per
dataset, then assign, per dataset, the list of one computed KPI per plan
KPI. -/
def compute_kpis_from_plan (plan : Plan) (datasets : List (String × Df)) :
    List (String × List KPIComputed) :=
  let init : List (String × List KPIComputed) := datasets.map (fun p => (p.1, []))
  datasets.foldl (fun res p => dictSet res p.1 (plan.kpis.map (evalPlanKpi p.2))) init

/-! ## `executor._infer_column_types`

The success of `pd.to_datetime(value, errors="coerce")` on a single cell is
an external capability; the embedding is parametric in a cell-level
date-parse oracle. -/

/-- First pass: classify by dtype — datetime, numeric, everything else
categorical. -/
def inferPass1 : Df → List String × List String × List String
  | [] => ([], [], [])
  | (c, col) :: rest =>
      let r := inferPass1 rest
      match col.dtype with
      | .datetime => (c :: r.1, r.2.1, r.2.2)
      | .numeric => (r.1, c :: r.2.1, r.2.2)
      | _ => (r.1, r.2.1, c :: r.2.2)

/-- Condition of the refinement pass for one categorical column name:
dtype is `object` and the fraction of date-parseable cells exceeds 0.8
(`parsed.notna().mean() > 0.8`; an empty column gives `NaN > 0.8`, false). -/
def refineCond (df : Df) (p : Cell → Bool) (c : String) : Bool :=
  match dfGet df c with
  | none => false
  | some col =>
      col.dtype == Dtype.obj && 5 * col.cells.countP p > 4 * col.cells.length

/-- Second pass: walk a copy of the categorical list; each qualifying
column is appended to the time list and removed from the categorical list. -/
def refinePass (df : Df) (p : Cell → Bool) :
    List String → List String × List String → List String × List String
  | [], st => st
  | c :: rest, (t, ca) =>
      if refineCond df p c then refinePass df p rest (t ++ [c], ca.erase c)
      else refinePass df p rest (t, ca)

/-- `executor._infer_column_types`, parametric in the date-parse oracle. -/
def _infer_column_types (p : Cell → Bool) (df : Df) :
    List String × List String × List String :=
  let r := inferPass1 df
  let r2 := refinePass df p r.2.2 (r.1, r.2.2)
  (r2.1, r.2.1, r2.2)

/-! ## SHA-256 (`hashlib.sha256(...).hexdigest()`), over `Nat` bytes -/

def w32 (n : Nat) : Nat := n % 4294967296

def rotr (k n : Nat) : Nat := w32 ((n >>> k) ||| (n <<< (32 - k)))

def smallSigma0 (x : Nat) : Nat := rotr 7 x ^^^ rotr 18 x ^^^ (x >>> 3)
def smallSigma1 (x : Nat) : Nat := rotr 17 x ^^^ rotr 19 x ^^^ (x >>> 10)
def bigSigma0 (x : Nat) : Nat := rotr 2 x ^^^ rotr 13 x ^^^ rotr 22 x
def bigSigma1 (x : Nat) : Nat := rotr 6 x ^^^ rotr 11 x ^^^ rotr 25 x

def first64Primes : List Nat :=
  [2, 3, 5, 7, 11, 13, 17, 19, 23, 29, 31, 37, 41, 43, 47, 53, 59, 61, 67,
   71, 73, 79, 83, 89, 97, 101, 103, 107, 109, 113, 127, 131, 137, 139, 149,
   151, 157, 163, 167, 173, 179, 181, 191, 193, 197, 199, 211, 223, 227, 229,
   233, 239, 241, 251, 257, 263, 269, 271, 277, 281, 283, 293, 307, 311]

/-- Integer cube root by bisection (largest `r` with `r^3 ≤ n`). -/
def icbrtAux : Nat → Nat → Nat → Nat → Nat
  | 0, _, lo, _ => lo
  | fuel + 1, n, lo, hi =>
      if lo + 1 ≥ hi then lo
      else
        let mid := (lo + hi) / 2
        if mid ^ 3 ≤ n then icbrtAux fuel n mid hi else icbrtAux fuel n lo mid

def icbrt (n : Nat) : Nat := icbrtAux 200 n 0 (n + 2)

/-- Round constants: fractional parts of the cube roots of the first 64
primes, as 32-bit words (FIPS 180-4). -/
def sha256K : List Nat :=
  first64Primes.map (fun p => icbrt (p * 2 ^ 96) % 2 ^ 32)

/-- Initial hash state: fractional parts of the square roots of the first 8
primes. -/
def sha256H0 : List Nat :=
  (first64Primes.take 8).map (fun p => Nat.sqrt (p * 2 ^ 64) % 2 ^ 32)

/-- Extend the 16 message words to 64. -/
def extendW : List Nat → Nat → List Nat
  | w, 0 => w
  | w, k + 1 =>
      let n := w.length
      extendW
        (w ++ [w32 (w.getD (n - 16) 0 + smallSigma0 (w.getD (n - 15) 0) +
          w.getD (n - 7) 0 + smallSigma1 (w.getD (n - 2) 0))]) k

/-- One compression round; the state is `[a,b,c,d,e,f,g,h]`, `kw` is
`K[i] + W[i]` (mod 2^32). -/
def compressRound (st : List Nat) (kw : Nat) : List Nat :=
  match st with
  | [a, b, c, d, e, f, g, h] =>
      let ch := (e &&& f) ^^^ ((e ^^^ 4294967295) &&& g)
      let maj := (a &&& b) ^^^ (a &&& c) ^^^ (b &&& c)
      let t1 := w32 (h + bigSigma1 e + ch + kw)
      let t2 := w32 (bigSigma0 a + maj)
      [w32 (t1 + t2), a, b, c, w32 (d + t1), e, f, g]
  | other => other

/-- Process one 64-byte block. -/
def processBlock (h : List Nat) (block : List Nat) : List Nat :=
  let w0 := (List.range 16).map (fun i =>
    block.getD (4 * i) 0 * 16777216 + block.getD (4 * i + 1) 0 * 65536 +
      block.getD (4 * i + 2) 0 * 256 + block.getD (4 * i + 3) 0)
  let w := extendW w0 48
  let kw := List.zipWith (fun a b => w32 (a + b)) sha256K w
  let st := kw.foldl compressRound h
  List.zipWith (fun a b => w32 (a + b)) h st

def bigEndian8 (n : Nat) : List Nat :=
  (List.range 8).map (fun i => (n >>> (8 * (7 - i))) % 256)

/-- Append `0x80`, zero padding, and the 64-bit big-endian bit length. -/
def sha256Pad (msg : List Nat) : List Nat :=
  let padZeros := (64 - (msg.length + 9) % 64) % 64
  msg ++ [128] ++ List.replicate padZeros 0 ++ bigEndian8 (8 * msg.length)

def chunks64Aux : Nat → List Nat → List (List Nat)
  | 0, _ => []
  | _, [] => []
  | fuel + 1, l => l.take 64 :: chunks64Aux fuel (l.drop 64)

def chunks64 (l : List Nat) : List (List Nat) := chunks64Aux (l.length + 1) l

/-- The 32-byte SHA-256 digest of a byte string. -/
def sha256Bytes (msg : List Nat) : List Nat :=
  let hFinal := (chunks64 (sha256Pad msg)).foldl processBlock sha256H0
  hFinal.flatMap (fun x => [(x >>> 24) % 256, (x >>> 16) % 256, (x >>> 8) % 256, x % 256])

/-- UTF-8 encoding of one scalar value. -/
def encodeChar (c : Char) : List Nat :=
  let n := c.toNat
  if n < 128 then [n]
  else if n < 2048 then [192 + n / 64, 128 + n % 64]
  else if n < 65536 then [224 + n / 4096, 128 + n / 64 % 64, 128 + n % 64]
  else [240 + n / 262144, 128 + n / 4096 % 64, 128 + n / 64 % 64, 128 + n % 64]

def utf8Bytes (s : String) : List Nat := s.toList.flatMap encodeChar

def hexDigit (n : Nat) : Char :=
  if n < 10 then Char.ofNat (48 + n) else Char.ofNat (87 + n)

def byteHex (b : Nat) : List Char := [hexDigit (b / 16), hexDigit (b % 16)]

/-- `hashlib.sha256(s.encode("utf-8")).hexdigest()`. -/
def sha256Hex (s : String) : String :=
  String.mk ((sha256Bytes (utf8Bytes s)).flatMap byteHex)

/-! ## `executor._mk_cache_key` and `memory_store.MemoryStore` -/

/-- `executor._mk_cache_key`. -/
def _mk_cache_key (pre sql : String) : String :=
  pre ++ "_" ++ String.mk ((sha256Hex sql).toList.take 12)

/-- The store: the DuckDB index table (`cache_key → parquet_path`, primary
key upsert) and the parquet files on disk (`path → stored dataframe`;
parquet round-trips the frame with schema preserved). -/
structure MemoryStore where
  base_dir : String
  index : List (String × String)
  files : List (String × Df)
deriving DecidableEq

/-- `MemoryStore.cache_df`: write the parquet file first, then upsert the
index row (`INSERT OR REPLACE`); returns the new store and the path. -/
def cache_df (m : MemoryStore) (key : String) (df : Df) : MemoryStore × String :=
  let path := m.base_dir ++ "/parquet/" ++ key ++ ".parquet"
  let files' := dictSet m.files path df
  let index' := dictSet m.index key path
  ({ m with files := files', index := index' }, path)

/-- `MemoryStore.load_cached_df`: no index row gives `None`; an index row
pointing at a missing file raises (`pd.read_parquet` on a missing path),
modelled as `.error`. -/
def load_cached_df (m : MemoryStore) (key : String) : Except String (Option Df) :=
  match m.index.lookup key with
  | none => .ok none
  | some path =>
      match m.files.lookup path with
      | some df => .ok (some df)
      | none => .error "FileNotFoundError"

/-! ## `models.py` output records and `executor.py` -/

/-- `models.KPIValue`. -/
structure KPIValue where
  name : String
  value : PyVal
  note : Option String
deriving DecidableEq, Repr

/-- `models.DatasetSummary`. -/
structure DatasetSummary where
  dataset_name : String
  cache_key : String
  parquet_path : String
  n_rows : Nat
  n_cols : Nat
  columns : List String
  inferred_time_columns : List String
  inferred_numeric_columns : List String
  inferred_categorical_columns : List String
deriving DecidableEq, Repr

/-- `models.KPIReport`. -/
structure KPIReport where
  dataset_name : String
  kpis : List KPIValue
  highlights : List String
  risks : List String
deriving DecidableEq, Repr

/-- `models.ExecutionBundle`. -/
structure ExecutionBundle where
  datasets : List DatasetSummary
  reports : List KPIReport
deriving DecidableEq, Repr

/-- `models.SQLArtifact`. -/
structure SQLArtifact where
  dataset_name : String
  description : String
  sql : String
  expected_columns : List String
  cache_key : Option String
deriving DecidableEq, Repr

/-- Stable descending insertion by a rational key (ties keep earlier
elements first). -/
def insertDesc {α : Type} (key : α → ℚ) (x : α) : List α → List α
  | [] => [x]
  | y :: ys => if key x > key y then x :: y :: ys else y :: insertDesc key x ys

def sortDesc {α : Type} (key : α → ℚ) : List α → List α
  | [] => []
  | x :: xs => insertDesc key x (sortDesc key xs)

def joinComma (l : List String) : String := String.intercalate ", " l

/-- Render a non-negative rational with one decimal digit (`"%.1f"`,
rounding half up; Python rounds the underlying double half to even, a
difference confined to display strings). -/
def fmt1 (q : ℚ) : String :=
  let t := (Rat.floor (10 * q + 1 / 2)).toNat
  toString (t / 10) ++ "." ++ toString (t % 10)

/-- The cells of a named column (empty if the name is absent). -/
def cellsOf (df : Df) (c : String) : List Cell :=
  ((dfGet df c).map Column.cells).getD []

/-- `str(value)` as used by `astype(str)` for the top-categories highlight
(approximates Python rendering; only display strings depend on it). -/
def cellStr : Cell → String
  | .str s => s
  | .num q => if q.den = 1 then toString q.num ++ ".0" else toString q.num ++ "/" ++ toString q.den
  | .null => "nan"

/-- Distinct values in first-occurrence order. -/
def uniqAux (seen : List String) : List String → List String
  | [] => []
  | x :: xs => if seen.contains x then uniqAux seen xs else x :: uniqAux (x :: seen) xs

/-- `Series.value_counts(dropna=True)`: counts in descending order. -/
def topCounts (vals : List String) : List (String × Nat) :=
  sortDesc (fun p => (p.2 : ℚ))
    ((uniqAux [] vals).map (fun v => (v, vals.countP (· == v))))

def listMinInt : List ℤ → ℤ
  | [] => 0
  | x :: xs => xs.foldl Min.min x

def listMaxInt : List ℤ → ℤ
  | [] => 0
  | x :: xs => xs.foldl Max.max x

/-- The generic per-artifact KPI/insight block of
`execute_and_cache_artifacts` (rows/columns counts, missingness risk,
numeric summaries, time-span and top-category highlights).  `dtVal` is the
cell-level model of `pd.to_datetime(..., errors="coerce")`, timestamps
abstracted to integers. -/
def genericReport (df : Df) (timeC numC catC : List String)
    (dtVal : Cell → Option ℤ) : List KPIValue × List String × List String :=
  let kpis0 : List KPIValue :=
    [⟨"rows", .vInt (dfRows df), none⟩, ⟨"columns", .vInt (dfCols df), none⟩]
  let missPairs : List (String × ℚ) :=
    df.map (fun p =>
      (p.1, 100 * (p.2.cells.countP (· == Cell.null) : ℚ) / (p.2.cells.length : ℚ)))
  let top := (sortDesc (fun p => p.2) missPairs).take 5
  let risks : List String :=
    match top with
    | [] => []
    | (_, p0) :: _ =>
        if p0 > 0 then
          ["Top missing columns (%): " ++
            joinComma (top.map (fun q => q.1 ++ ":" ++ fmt1 q.2))]
        else []
  let numKpis : List KPIValue :=
    (numC.take 6).flatMap (fun c =>
      let s := numericValues df c
      if s.length > 0 then
        [⟨c ++ "__sum", .vFloat s.sum, none⟩,
         ⟨c ++ "__avg", .vFloat (s.sum / (s.length : ℚ)), none⟩,
         ⟨c ++ "__p95", .vFloat (quantile95 s), none⟩]
      else [])
  let h1 : List String :=
    if numC.isEmpty then []
    else ["Detected numeric columns: " ++ joinComma (numC.take 10)]
  let h2 : List String :=
    match timeC with
    | [] => []
    | c :: _ =>
        let ts := (cellsOf df c).filterMap dtVal
        if ts.isEmpty then []
        else
          ["Time column `" ++ c ++ "` spans " ++ toString (listMinInt ts) ++
            " → " ++ toString (listMaxInt ts)]
  let h3 : List String :=
    match catC with
    | [] => []
    | c :: _ =>
        let vc := (topCounts ((cellsOf df c).map cellStr)).take 5
        ["Top `" ++ c ++ "`: " ++
          joinComma (vc.map (fun q => q.1 ++ "(" ++ toString q.2 ++ ")"))]
  (kpis0 ++ numKpis, h1 ++ h2 ++ h3, risks)

/-- `df.head(n)`. -/
def dfHead (n : Nat) (df : Df) : Df :=
  df.map (fun p => (p.1, ⟨p.2.dtype, p.2.cells.take n⟩))

/-- Python string subscription with a string index, as written on the merge
line of `executor.py` (`kc.name [kc.name]`): unconditionally a
`TypeError`, whatever the values are. -/
def strGetItemStr (_s _idx : String) : Except String String :=
  .error "string indices must be integers"

/-- Append the computed plan KPIs to a report's KPI list
(`r.kpis.append(KPIValue(name=kc.name [kc.name], value=kc.value,
note=kc.note))`); stops at the first raised exception, returning the
partial list and the error. -/
def appendComputed (kpis : List KPIValue) :
    List KPIComputed → List KPIValue × Option String
  | [] => (kpis, none)
  | kc :: rest =>
      match strGetItemStr kc.name kc.name with
      | .error e => (kpis, some e)
      | .ok nm => appendComputed (kpis ++ [⟨nm, kc.value, kc.note⟩]) rest

/-- In-place mutation of the first report with the given dataset name. -/
def replaceFirst : List KPIReport → String → KPIReport → List KPIReport
  | [], _, _ => []
  | r :: rs, ds, new =>
      if r.dataset_name == ds then new :: rs else r :: replaceFirst rs ds new

/-- The merge loop inside the `try` block: for each computed-map entry,
find the matching report (skip if none) and append its computed KPIs,
mutating the report in place; an exception aborts the remaining work,
leaving the mutations made so far. -/
def tryMergeEntries :
    List (String × List KPIComputed) → List KPIReport →
    List KPIReport × Option String
  | [], reports => (reports, none)
  | (ds, lst) :: rest, reports =>
      match reports.find? (·.dataset_name == ds) with
      | none => tryMergeEntries rest reports
      | some r =>
          let res := appendComputed r.kpis lst
          let reports' := replaceFirst reports ds { r with kpis := res.1 }
          match res.2 with
          | some e => (reports', some e)
          | none => tryMergeEntries rest reports'

/-- The planner-driven merge with its `try/except`: on any exception the
reports keep their generic KPIs and every report gets a risk note naming
the failure. -/
def mergePlanKpis (plan : Plan) (reports : List KPIReport)
    (datasets : List (String × Df)) : List KPIReport :=
  let res := tryMergeEntries (compute_kpis_from_plan plan datasets) reports
  match res.2 with
  | none => res.1
  | some e =>
      res.1.map (fun r =>
        { r with risks := r.risks ++ ["Planner-driven KPI computation failed: " ++ e] })

/-- The per-artifact loop of `execute_and_cache_artifacts`: gate, execute
(`run_sql_select` gates again and strips the query), cache, infer column
types, summarise, compute the generic report, collect a preview and the
full dataset.  Any raised exception propagates.  `runQuery` is the external
engine; dataset names are unique per run (data-model invariant), so the
`full_datasets`/`previews` dicts are built positionally. -/
def execLoop (runQuery : String → Except String Df) (dtVal : Cell → Option ℤ)
    (cachePre : String) (maxPrev : Nat) :
    List SQLArtifact → MemoryStore →
    Except String
      (List DatasetSummary × List KPIReport × List (String × Df) ×
        List (String × Df) × MemoryStore)
  | [], m => .ok ([], [], [], [], m)
  | art :: rest, m => do
      let sql := strStrip art.sql
      let _ ← enforce_select_only sql.toList
      let cacheKey := art.cache_key.getD (_mk_cache_key cachePre sql)
      let _ ← enforce_select_only sql.toList
      let q := String.mk (rstripSemi (stripWS sql.toList))
      let df ← runQuery q
      let cached := cache_df m cacheKey df
      let inferred := _infer_column_types (fun cell => (dtVal cell).isSome) df
      let timeC := inferred.1
      let numC := inferred.2.1
      let catC := inferred.2.2
      let summary : DatasetSummary :=
        ⟨art.dataset_name, cacheKey, cached.2, dfRows df, dfCols df,
          dfColumns df, timeC, numC, catC⟩
      let generic := genericReport df timeC numC catC dtVal
      let report : KPIReport := ⟨art.dataset_name, generic.1, generic.2.1, generic.2.2⟩
      let res ← execLoop runQuery dtVal cachePre maxPrev rest cached.1
      .ok (summary :: res.1, report :: res.2.1,
        (art.dataset_name, dfHead maxPrev df) :: res.2.2.1,
        (art.dataset_name, df) :: res.2.2.2.1, res.2.2.2.2)

/-- `executor.execute_and_cache_artifacts`: run the per-artifact loop, then
— only if a plan is supplied — merge planner-driven KPIs under the
`try/except`; returns the bundle, the previews and the final store. -/
def execute_and_cache_artifacts (runQuery : String → Except String Df)
    (dtVal : Cell → Option ℤ) (m : MemoryStore) (artifacts : List SQLArtifact)
    (analysis_plan : Option Plan) (cachePre : String := "ds")
    (maxPrev : Nat := 50) :
    Except String (ExecutionBundle × List (String × Df) × MemoryStore) := do
  let res ← execLoop runQuery dtVal cachePre maxPrev artifacts m
  let reports :=
    match analysis_plan with
    | none => res.2.1
    | some plan => mergePlanKpis plan res.2.1 res.2.2.2.1
  .ok (⟨res.1, reports⟩, res.2.2.1, res.2.2.2.2)

/-! ## Concrete fixtures used by closed theorems and witnesses -/

/-- A store whose index points at a parquet file that does not exist. -/
def danglingStore : MemoryStore :=
  ⟨"cache", [("k", "cache/parquet/k.parquet")], []⟩

/-- A concrete date-parse oracle: exactly the cell `"2024-01-01"` parses. -/
def toyDateParse : Cell → Bool := fun c => c == Cell.str "2024-01-01"

/-- One object-dtype column in which exactly 4 of 5 values parse as dates
(an 80% success rate). -/
def toyDf7 : Df :=
  [("d", ⟨Dtype.obj,
    [.str "2024-01-01", .str "2024-01-01", .str "2024-01-01",
     .str "2024-01-01", .str "nope"]⟩)]

/-- A three-column frame: one datetime, one numeric, one object column. -/
def witDf6 : Df :=
  [("a", ⟨Dtype.datetime, []⟩), ("b", ⟨Dtype.numeric, []⟩), ("c", ⟨Dtype.obj, []⟩)]

/-- An object column in which 5 of 6 values parse as dates. -/
def witCol7 : Column :=
  ⟨Dtype.obj, [.str "2024-01-01", .str "2024-01-01", .str "2024-01-01",
    .str "2024-01-01", .str "2024-01-01", .str "nope"]⟩

/-- Datetime, numeric and refinable object columns together. -/
def witDf7 : Df :=
  [("tm", ⟨Dtype.datetime, []⟩), ("n", ⟨Dtype.numeric, []⟩), ("d6", witCol7)]

instance {ε α : Type} [DecidableEq ε] [DecidableEq α] : DecidableEq (Except ε α) :=
  fun a b =>
    match a, b with
    | .error e, .error e' => decidable_of_iff (e = e') (by simp)
    | .ok x, .ok y => decidable_of_iff (x = y) (by simp)
    | .error _, .ok _ => isFalse (fun h => Except.noConfusion h)
    | .ok _, .error _ => isFalse (fun h => Except.noConfusion h)

/-- A date-parse model under which nothing parses. -/
def noDt : Cell → Option ℤ := fun _ => none

/-- An engine that answers every query with an empty result set. -/
def okEmptyQuery : String → Except String Df := fun _ => .ok []

/-- A store with nothing cached yet. -/
def emptyStore : MemoryStore := ⟨"cache", [], []⟩

/-- One numeric column `amount = [10, 20, 30]`. -/
def dfSales : Df := [("amount", ⟨Dtype.numeric, [.num 10, .num 20, .num 30]⟩)]

/-- An engine knowing exactly one query. -/
def salesEngine : String → Except String Df :=
  fun q => if q == "SELECT amount FROM t" then .ok dfSales else .error "no such table"

def salesArtifact : SQLArtifact :=
  ⟨"sales", "total sales", "SELECT amount FROM t", [], some "k1"⟩

/-- An artifact whose SQL the gate rejects. -/
def usersArtifact : SQLArtifact := ⟨"users", "", "DELETE FROM t", [], some "k2"⟩

def salesPlan : Plan := ⟨[⟨"Total Sales", "", some "sum(amount)"⟩]⟩

def miniArtifact : SQLArtifact := ⟨"d", "", "SELECT 1", [], some "k0"⟩

def miniPlan : Plan := ⟨[⟨"K", "", none⟩]⟩

/-- An artifact whose SQL passes the gate but whose query the engine
rejects. -/
def missingArtifact : SQLArtifact :=
  ⟨"m", "", "SELECT amount FROM missing", [], some "k3"⟩

/-- Per-artifact success: the gate admits the stripped SQL and the external
engine answers the stripped query. -/
def artOk (runQuery : String → Except String Df) (a : SQLArtifact) : Prop :=
  is_select_only (strStrip a.sql).toList = true ∧
  ∃ df, runQuery (String.mk (rstripSemi (stripWS (strStrip a.sql).toList))) = .ok df

/-! ## Lemmas and theorems -/

/-- ASCII lower-casing preserves word-character status. -/
theorem isWordCharN_toLowerN (n : Nat) : isWordCharN (toLowerN n) = isWordCharN n := by
  simp only [toLowerN]
  split
  · rename_i h
    simp only [Bool.and_eq_true, decide_eq_true_eq] at h
    have h1 : isWordCharN (n + 32) = true := by simp [isWordCharN]; omega
    have h2 : isWordCharN n = true := by simp [isWordCharN]; omega
    rw [h1, h2]
  · rfl

/-- A word character never compares case-insensitively equal to a
non-word character. -/
theorem charEqCI_eq_false {a b : Char} (ha : isWordChar a = true)
    (hb : isWordChar b = false) : charEqCI a b = false := by
  unfold isWordChar at ha hb
  unfold charEqCI
  rw [beq_eq_false_iff_ne]
  intro he
  have h1 := isWordCharN_toLowerN a.toNat
  have h2 := isWordCharN_toLowerN b.toNat
  rw [he, h2, hb] at h1
  rw [ha] at h1
  exact absurd h1 (by decide)

theorem isWordChar_of_isWS {c : Char} (h : isWS c = true) : isWordChar c = false := by
  simp only [isWS, Bool.or_eq_true, beq_iff_eq] at h
  rcases h with (((((h | h) | h) | h) | h) | h) <;> subst h <;> decide

theorem isWordChar_of_semi {c : Char} (h : (c == ';') = true) : isWordChar c = false := by
  rw [beq_iff_eq] at h; subst h; decide

/-- Appending a non-word character to the text does not change whether a
word-character keyword matches (with trailing boundary) at the start. -/
theorem startsWithWordCI_append {c : Char} (hc : isWordChar c = false) :
    ∀ (kw : List Char), (∀ x ∈ kw, isWordChar x = true) →
      ∀ s, startsWithWordCI kw (s ++ [c]) = startsWithWordCI kw s := by
  intro kw
  induction kw with
  | nil =>
      intro _ s
      simp only [startsWithWordCI, isPrefixCI, Bool.true_and, List.length_nil, List.drop_zero]
      cases s with
      | nil => simp [boundaryAfter, hc]
      | cons a t => rfl
  | cons k ks ih =>
      intro hall s
      have hk : isWordChar k = true := hall k (by simp)
      have hks : ∀ x ∈ ks, isWordChar x = true := fun x hx => hall x (by simp [hx])
      cases s with
      | nil =>
          simp only [List.nil_append, startsWithWordCI, isPrefixCI]
          rw [charEqCI_eq_false hk hc]
          simp
      | cons a s' =>
          have hih := ih hks s'
          simp only [startsWithWordCI] at hih
          simp only [List.cons_append, startsWithWordCI, isPrefixCI, List.length_cons,
            List.drop_succ_cons, Bool.and_assoc, List.append_eq]
          rw [hih]

/-- Appending a non-word character does not change whole-word containment. -/
theorem containsWordAux_append {c : Char} (hc : isWordChar c = false)
    {kw : List Char} (hne : kw ≠ []) (hall : ∀ x ∈ kw, isWordChar x = true) :
    ∀ (l : List Char) (b : Bool),
      containsWordAux kw b (l ++ [c]) = containsWordAux kw b l := by
  intro l
  induction l with
  | nil =>
      intro b
      simp only [List.nil_append, containsWordAux]
      cases kw with
      | nil => exact absurd rfl hne
      | cons k ks =>
          have hk : isWordChar k = true := hall k (by simp)
          simp only [startsWithWordCI, isPrefixCI]
          rw [charEqCI_eq_false hk hc]
          simp
  | cons d l' ih =>
      intro b
      have h2 := startsWithWordCI_append hc kw hall (d :: l')
      rw [List.cons_append] at h2
      simp only [List.cons_append, containsWordAux, List.append_eq]
      rw [h2, ih]

/-- Dropping boundary characters from the front does not change whole-word
containment. -/
theorem containsWordCI_dropWhile {p : Char → Bool}
    (hp : ∀ x, p x = true → isWordChar x = false)
    {kw : List Char} (hne : kw ≠ []) (hall : ∀ x ∈ kw, isWordChar x = true) :
    ∀ l : List Char, containsWordCI kw (l.dropWhile p) = containsWordCI kw l := by
  intro l
  induction l with
  | nil => rfl
  | cons d l' ih =>
      rw [List.dropWhile_cons]
      split
      · rename_i hd
        have hdw : isWordChar d = false := hp d hd
        rw [ih]
        show containsWordCI kw l' = containsWordCI kw (d :: l')
        unfold containsWordCI
        simp only [containsWordAux]
        cases kw with
        | nil => exact absurd rfl hne
        | cons k ks =>
            have hk : isWordChar k = true := hall k (by simp)
            simp only [startsWithWordCI, isPrefixCI]
            rw [charEqCI_eq_false hk hdw]
            simp [hdw]
      · rfl

/-- Dropping boundary characters from the back does not change whole-word
containment. -/
theorem containsWordCI_rdropWhile {p : Char → Bool}
    (hp : ∀ x, p x = true → isWordChar x = false)
    {kw : List Char} (hne : kw ≠ []) (hall : ∀ x ∈ kw, isWordChar x = true) :
    ∀ l : List Char, containsWordCI kw (rdropWhile p l) = containsWordCI kw l := by
  intro l
  induction l using List.reverseRecOn with
  | nil => rfl
  | append_singleton l a ih =>
      unfold rdropWhile
      rw [List.reverse_append, List.reverse_singleton, List.singleton_append,
        List.dropWhile_cons]
      split
      · rename_i ha
        have : (l.reverse.dropWhile p).reverse = rdropWhile p l := rfl
        rw [this, ih]
        exact (containsWordAux_append (hp a ha) hne hall l true).symm
      · rw [List.reverse_cons, List.reverse_reverse]

/-- Whole-word containment of a forbidden keyword is unchanged by the
`strip().strip(";")` normalisation performed by `is_select_only`. -/
theorem containsWordCI_pythonStrip {kw : List Char} (hne : kw ≠ [])
    (hall : ∀ x ∈ kw, isWordChar x = true) (sql : List Char) :
    containsWordCI kw (pythonStrip sql) = containsWordCI kw sql := by
  unfold pythonStrip stripSemi stripWS
  rw [containsWordCI_rdropWhile (fun x hx => isWordChar_of_semi hx) hne hall,
    containsWordCI_dropWhile (fun x hx => isWordChar_of_semi hx) hne hall,
    containsWordCI_rdropWhile (fun x hx => isWordChar_of_isWS hx) hne hall,
    containsWordCI_dropWhile (fun x hx => isWordChar_of_isWS hx) hne hall]

/-- Every forbidden keyword is a nonempty word-character string. -/
theorem forbidden_word_shape :
    ∀ kw ∈ FORBIDDEN, kw ≠ [] ∧ ∀ x ∈ kw, isWordChar x = true := by decide

/-- C1: for every SQL string whose stripped form begins with `SELECT` (or a
`WITH (...)` prefix followed by `SELECT`) and contains no forbidden keyword
as a whole word, `is_select_only` returns `true` and `enforce_select_only`
does not raise; and for every string containing a forbidden keyword as a
whole word — regardless of any SELECT prefix — `is_select_only` returns
`false` and `enforce_select_only` raises. -/
theorem c1_safety_gate (sql : List Char) :
    (selStart (pythonStrip sql) = true →
      (∀ kw ∈ FORBIDDEN, containsWordCI kw (pythonStrip sql) = false) →
      is_select_only sql = true ∧ enforce_select_only sql = .ok ()) ∧
    (∀ kw ∈ FORBIDDEN, containsWordCI kw sql = true →
      is_select_only sql = false ∧
      enforce_select_only sql =
        .error "BLOCKED non-SELECT SQL. Only read-only SELECT queries are allowed.") := by
  constructor
  · intro hsel hnone
    have hsome : FORBIDDEN.any (fun kw => containsWordCI kw (pythonStrip sql)) = false := by
      rw [List.any_eq_false]
      intro kw hkw
      simp [hnone kw hkw]
    have hsel_only : is_select_only sql = true := by
      show (selStart (pythonStrip sql) &&
        !(FORBIDDEN.any fun kw => containsWordCI kw (pythonStrip sql))) = true
      rw [hsel, hsome]
      rfl
    exact ⟨hsel_only, by simp [enforce_select_only, hsel_only]⟩
  · intro kw hkw hcont
    obtain ⟨hne, hall⟩ := forbidden_word_shape kw hkw
    have hstr : containsWordCI kw (pythonStrip sql) = true := by
      rw [containsWordCI_pythonStrip hne hall]
      exact hcont
    have hany : FORBIDDEN.any (fun kw => containsWordCI kw (pythonStrip sql)) = true := by
      rw [List.any_eq_true]
      exact ⟨kw, hkw, hstr⟩
    have hsel_only : is_select_only sql = false := by
      show (selStart (pythonStrip sql) &&
        !(FORBIDDEN.any fun kw => containsWordCI kw (pythonStrip sql))) = false
      rw [hany]
      simp
    exact ⟨hsel_only, by simp [enforce_select_only, hsel_only]⟩

/-- Witness for C1: the gate accepts a concrete plain `SELECT` and rejects a
concrete `DROP` statement. -/
theorem c1_safety_gate_witness :
    is_select_only "SELECT * FROM t".toList = true ∧
    is_select_only "DROP TABLE t".toList = false :=
  ⟨((c1_safety_gate "SELECT * FROM t".toList).1 (by decide) (by decide)).1,
   ((c1_safety_gate "DROP TABLE t".toList).2 "DROP".toList (by decide) (by decide)).1⟩

/-! ### Association-list (dict) lemmas -/

theorem lookup_cons_self {β : Type} (k : String) (v : β) (rest : List (String × β)) :
    List.lookup k ((k, v) :: rest) = some v := by
  simp [List.lookup]

theorem lookup_cons_ne {β : Type} {k k' : String} (h : k ≠ k') (v' : β)
    (rest : List (String × β)) :
    List.lookup k ((k', v') :: rest) = List.lookup k rest := by
  have hb : (k == k') = false := by simp [h]
  simp [List.lookup, hb]

theorem lookup_dictSet {β : Type} (l : List (String × β)) (k : String) (v : β) :
    (dictSet l k v).lookup k = some v := by
  induction l with
  | nil => simp [dictSet, List.lookup]
  | cons p rest ih =>
      obtain ⟨k', v'⟩ := p
      simp only [dictSet]
      split
      · exact lookup_cons_self k v rest
      · rename_i hne
        have hkk : k ≠ k' := by
          intro he
          exact hne (by rw [he, beq_self_eq_true])
        rw [lookup_cons_ne hkk, ih]

theorem lookup_dictSet_ne {β : Type} (l : List (String × β)) (k k' : String)
    (v : β) (h : k ≠ k') : (dictSet l k' v).lookup k = l.lookup k := by
  induction l with
  | nil =>
      have hb : (k == k') = false := by simp [h]
      simp [dictSet, List.lookup, hb]
  | cons p rest ih =>
      obtain ⟨k₀, v₀⟩ := p
      simp only [dictSet]
      split
      · rename_i he
        rw [beq_iff_eq] at he
        subst he
        rw [lookup_cons_ne h, lookup_cons_ne h]
      · by_cases hk : k = k₀
        · subst hk
          rw [lookup_cons_self, lookup_cons_self]
        · rw [lookup_cons_ne hk, lookup_cons_ne hk, ih]

theorem dictSet_dictSet {β : Type} (l : List (String × β)) (k : String)
    (v₁ v₂ : β) : dictSet (dictSet l k v₁) k v₂ = dictSet l k v₂ := by
  induction l with
  | nil => simp [dictSet]
  | cons p rest ih =>
      obtain ⟨k', v'⟩ := p
      simp only [dictSet]
      split
      · simp [dictSet]
      · rename_i hne
        simp only [dictSet, if_neg hne]
        rw [ih]

theorem dictSet_map_fst_of_mem {β : Type} (l : List (String × β)) (k : String)
    (v : β) (h : k ∈ l.map Prod.fst) : (dictSet l k v).map Prod.fst = l.map Prod.fst := by
  induction l with
  | nil => simp at h
  | cons p rest ih =>
      obtain ⟨k', v'⟩ := p
      simp only [dictSet]
      split
      · rename_i he
        rw [beq_iff_eq] at he
        simp [he]
      · rename_i hne
        simp only [List.map_cons, List.cons.injEq, true_and]
        apply ih
        simp only [List.map_cons, List.mem_cons] at h
        rcases h with h | h
        · exact absurd (by rw [h, beq_self_eq_true]) hne
        · exact h

/-- Looking up the key of a member pair in a key-nodup association list
returns that pair's value. -/
theorem lookup_of_mem_nodup {β : Type} (l : List (String × β)) (k : String)
    (v : β) (hmem : (k, v) ∈ l) (hnd : (l.map Prod.fst).Nodup) :
    l.lookup k = some v := by
  induction l with
  | nil => simp at hmem
  | cons p rest ih =>
      obtain ⟨k', v'⟩ := p
      simp only [List.map_cons, List.nodup_cons] at hnd
      rcases List.mem_cons.mp hmem with he | hr
      · cases he
        exact lookup_cons_self k v rest
      · have hkne : k ≠ k' := by
          intro he
          subst he
          exact hnd.1 (List.mem_map_of_mem Prod.fst hr)
        rw [lookup_cons_ne hkne, ih hr hnd.2]

/-! ### C8: cache key determinism and cache round trip -/

/-- C8: the derived cache key is a fixed function of namespace prefix and
SQL text — the prefix joined to the first 12 hex characters of the SHA-256
digest of the UTF-8 encoded SQL — so identical SQL in a namespace always
maps to the same key; `cache_df` followed by `load_cached_df` on the same
key returns exactly the dataframe that was written (columns and dtypes
included); and re-caching the same key overwrites the previous entry
rather than accumulating a duplicate. -/
theorem c8_cache_determinism_roundtrip :
    (∀ pre sql : String,
      _mk_cache_key pre sql = pre ++ "_" ++ String.mk ((sha256Hex sql).toList.take 12)) ∧
    (∀ (m : MemoryStore) (key : String) (df : Df),
      load_cached_df (cache_df m key df).1 key = .ok (some df)) ∧
    (∀ (m : MemoryStore) (key : String) (df₁ df₂ : Df),
      (cache_df (cache_df m key df₁).1 key df₂).1 = (cache_df m key df₂).1) := by
  refine ⟨fun pre sql => rfl, ?_, ?_⟩
  · intro m key df
    show load_cached_df
      ⟨m.base_dir, dictSet m.index key (m.base_dir ++ "/parquet/" ++ key ++ ".parquet"),
        dictSet m.files (m.base_dir ++ "/parquet/" ++ key ++ ".parquet") df⟩ key = .ok (some df)
    unfold load_cached_df
    rw [lookup_dictSet]
    simp only
    rw [lookup_dictSet]
  · intro m key df₁ df₂
    show (⟨m.base_dir,
        dictSet (dictSet m.index key (m.base_dir ++ "/parquet/" ++ key ++ ".parquet"))
          key (m.base_dir ++ "/parquet/" ++ key ++ ".parquet"),
        dictSet (dictSet m.files (m.base_dir ++ "/parquet/" ++ key ++ ".parquet") df₁)
          (m.base_dir ++ "/parquet/" ++ key ++ ".parquet") df₂⟩ : MemoryStore) =
      ⟨m.base_dir, dictSet m.index key (m.base_dir ++ "/parquet/" ++ key ++ ".parquet"),
        dictSet m.files (m.base_dir ++ "/parquet/" ++ key ++ ".parquet") df₂⟩
    rw [dictSet_dictSet, dictSet_dictSet]

/-! ### C9: cache reads on missing index rows and dangling entries -/

/-- Counterexample to C9 as stated: on a dangling index entry the read is
a raised `FileNotFoundError` (`pd.read_parquet` on a missing path), not
"not cached". -/
theorem c9_counterexample :
    load_cached_df danglingStore "k" = .error "FileNotFoundError" ∧
    load_cached_df danglingStore "k" ≠ .ok none := by
  constructor
  · rfl
  · intro h
    rw [show load_cached_df danglingStore "k" = Except.error "FileNotFoundError" from rfl] at h
    exact Except.noConfusion h

/-- C9 (amended): a key with no index row reads as absent; an index row
whose backing file is missing raises a read error rather than reading as
absent; and `cache_df` itself never creates such a dangling entry, because
the file is written before the index row is committed. -/
theorem c9_fails_open_amended (m : MemoryStore) (key : String) :
    (m.index.lookup key = none → load_cached_df m key = .ok none) ∧
    (∀ path, m.index.lookup key = some path → m.files.lookup path = none →
      load_cached_df m key = .error "FileNotFoundError") ∧
    (∀ df : Df,
      (cache_df m key df).1.files.lookup ((cache_df m key df).2) = some df) := by
  refine ⟨?_, ?_, ?_⟩
  · intro h
    unfold load_cached_df
    rw [h]
  · intro path h1 h2
    unfold load_cached_df
    rw [h1]
    simp only
    rw [h2]
  · intro df
    show (dictSet m.files (m.base_dir ++ "/parquet/" ++ key ++ ".parquet") df).lookup
      (m.base_dir ++ "/parquet/" ++ key ++ ".parquet") = some df
    rw [lookup_dictSet]

/-- Witness for C9 (amended): concrete instances of all three clauses. -/
theorem c9_fails_open_amended_witness :
    load_cached_df ⟨"cache", [], []⟩ "k" = .ok none ∧
    load_cached_df danglingStore "k" = .error "FileNotFoundError" ∧
    (cache_df ⟨"cache", [], []⟩ "k" []).1.files.lookup
      ((cache_df ⟨"cache", [], []⟩ "k" []).2) = some [] :=
  ⟨(c9_fails_open_amended ⟨"cache", [], []⟩ "k").1 (by decide),
   (c9_fails_open_amended danglingStore "k").2.1 "cache/parquet/k.parquet"
     (by decide) (by decide),
   (c9_fails_open_amended ⟨"cache", [], []⟩ "k").2.2 []⟩

/-! ### C10: `compute_kpis_from_plan` evaluates every KPI on every dataset -/

/-- The fold of `compute_kpis_from_plan` preserves the key list as long as
every processed key is already present. -/
theorem foldl_dictSet_map_fst (g : Df → List KPIComputed) :
    ∀ (ds : List (String × Df)) (acc : List (String × List KPIComputed)),
      (∀ p ∈ ds, p.1 ∈ acc.map Prod.fst) →
      ((ds.foldl (fun res p => dictSet res p.1 (g p.2)) acc).map Prod.fst =
        acc.map Prod.fst) := by
  intro ds
  induction ds with
  | nil => intro acc _; rfl
  | cons p rest ih =>
      intro acc hmem
      simp only [List.foldl_cons]
      rw [ih _ ?later]
      · exact dictSet_map_fst_of_mem acc p.1 (g p.2) (hmem p (by simp))
      case later =>
        intro q hq
        rw [dictSet_map_fst_of_mem acc p.1 (g p.2) (hmem p (by simp))]
        exact hmem q (by simp [hq])

/-- Steps whose key differs from `k` do not change what `k` looks up to. -/
theorem foldl_dictSet_lookup_notmem (g : Df → List KPIComputed) :
    ∀ (ds : List (String × Df)) (acc : List (String × List KPIComputed)) (k : String),
      k ∉ ds.map Prod.fst →
      ((ds.foldl (fun res p => dictSet res p.1 (g p.2)) acc).lookup k = acc.lookup k) := by
  intro ds
  induction ds with
  | nil => intro acc k _; rfl
  | cons p rest ih =>
      intro acc k hk
      simp only [List.map_cons, List.mem_cons] at hk
      push_neg at hk
      simp only [List.foldl_cons]
      rw [ih _ _ hk.2, lookup_dictSet_ne _ _ _ _ hk.1]

/-- After the fold, each dataset's key looks up to its computed value. -/
theorem foldl_dictSet_lookup_mem (g : Df → List KPIComputed) :
    ∀ (ds : List (String × Df)) (acc : List (String × List KPIComputed))
      (k : String) (df : Df),
      (ds.map Prod.fst).Nodup → (k, df) ∈ ds →
      ((ds.foldl (fun res p => dictSet res p.1 (g p.2)) acc).lookup k = some (g df)) := by
  intro ds
  induction ds with
  | nil => intro _ _ _ _ hmem; simp at hmem
  | cons p rest ih =>
      intro acc k df hnd hmem
      obtain ⟨k', df'⟩ := p
      simp only [List.map_cons, List.nodup_cons] at hnd
      simp only [List.foldl_cons]
      rcases List.mem_cons.mp hmem with he | hr
      · cases he
        rw [foldl_dictSet_lookup_notmem g rest _ k hnd.1, lookup_dictSet]
      · exact ih _ k df hnd.2 hr

/-- C10: `compute_kpis_from_plan` evaluates every plan KPI against every
dataset — the result has exactly the input's dataset keys, and each key
maps to one computed KPI per plan KPI, in plan order, each KPI resolving
via the formula hint or the terminal heuristic fallback. -/
theorem c10_plan_cross_product (plan : Plan) (datasets : List (String × Df))
    (hnd : (datasets.map Prod.fst).Nodup) :
    ((compute_kpis_from_plan plan datasets).map Prod.fst = datasets.map Prod.fst) ∧
    (∀ ds df, (ds, df) ∈ datasets →
      (compute_kpis_from_plan plan datasets).lookup ds =
        some (plan.kpis.map (evalPlanKpi df))) ∧
    (∀ entry ∈ compute_kpis_from_plan plan datasets,
      entry.2.length = plan.kpis.length) := by
  have hinit : (datasets.map (fun p => (p.1, ([] : List KPIComputed)))).map Prod.fst =
      datasets.map Prod.fst := by
    rw [List.map_map]; rfl
  have hunfold : compute_kpis_from_plan plan datasets =
      datasets.foldl
        (fun res p => dictSet res p.1 ((fun df => plan.kpis.map (evalPlanKpi df)) p.2))
        (datasets.map (fun p => (p.1, ([] : List KPIComputed)))) := rfl
  have hkeys : (compute_kpis_from_plan plan datasets).map Prod.fst =
      datasets.map Prod.fst := by
    rw [hunfold,
      foldl_dictSet_map_fst (fun df => plan.kpis.map (evalPlanKpi df)) datasets _ ?pre,
      hinit]
    case pre =>
      intro p hp
      rw [hinit]
      exact List.mem_map_of_mem Prod.fst hp
  have hlook : ∀ ds df, (ds, df) ∈ datasets →
      (compute_kpis_from_plan plan datasets).lookup ds =
        some (plan.kpis.map (evalPlanKpi df)) := by
    intro ds df hmem
    rw [hunfold]
    exact foldl_dictSet_lookup_mem (fun df => plan.kpis.map (evalPlanKpi df))
      datasets _ ds df hnd hmem
  refine ⟨hkeys, hlook, ?_⟩
  intro entry hentry
  obtain ⟨k, v⟩ := entry
  have hknd : ((compute_kpis_from_plan plan datasets).map Prod.fst).Nodup := by
    rw [hkeys]; exact hnd
  have hk : k ∈ datasets.map Prod.fst := by
    rw [← hkeys]
    exact List.mem_map_of_mem Prod.fst hentry
  obtain ⟨⟨k', df⟩, hdfmem, hkeq⟩ := List.mem_map.mp hk
  simp only at hkeq
  subst hkeq
  have h1 := lookup_of_mem_nodup _ k' v hentry hknd
  have h2 := hlook k' df hdfmem
  rw [h1] at h2
  have : v = plan.kpis.map (evalPlanKpi df) := by
    injection h2
  rw [this]
  simp

/-- Witness for C10 at a concrete two-dataset input. -/
theorem c10_plan_cross_product_witness :
    ((compute_kpis_from_plan ⟨[⟨"Total Sales", "", some "sum(amount)"⟩]⟩
        [("sales", [("amount", ⟨Dtype.numeric, [Cell.num 10]⟩)]), ("users", [])]).map
      Prod.fst = ["sales", "users"]) ∧
    (∀ entry ∈ compute_kpis_from_plan ⟨[⟨"Total Sales", "", some "sum(amount)"⟩]⟩
        [("sales", [("amount", ⟨Dtype.numeric, [Cell.num 10]⟩)]), ("users", [])],
      entry.2.length = 1) :=
  ⟨(c10_plan_cross_product _ _ (by decide)).1,
   (c10_plan_cross_product _ _ (by decide)).2.2⟩

/-! ### C5: formula-hint grammar and semantics -/

/-- C5: the formula mini-grammar's semantics — `sum/avg/min/max/p95`
aggregate the numerically-coerced column (non-coercible and missing values
ignored) and give NoMatch when the column is absent or no values survive;
`count_distinct` counts distinct non-missing values; `count_rows` returns
the row count regardless of columns; a hint that does not match the grammar
or whose column is absent yields NoMatch and falls through to the
heuristics instead of raising; and the P4 round-trip examples:
`sum(amount)` over `[10,20,30]` is 60, `count_rows()` on a 0-row dataset is
0, `count_distinct(user_id)` over `[1,1,2,3]` is 3. -/
theorem c5_formula_hint_semantics :
    (∀ (df : Df) (col : String) (a : Agg),
      dfGet df col = none → _safe_agg df col a = none) ∧
    (∀ (df : Df) (col : String) (a : Agg),
      numericValues df col = [] → _safe_agg df col a = none) ∧
    (∀ (df : Df) (col : String) (a : Agg),
      dfGet df col ≠ none → numericValues df col ≠ [] →
      _safe_agg df col a = some (aggValue a (numericValues df col))) ∧
    (∀ (df : Df) (col : String) (c : Column), dfGet df col = some c →
      _safe_count_distinct df col =
        some (((c.cells.filter (· ≠ Cell.null)).dedup).length : ℤ)) ∧
    (∀ (df : Df) (kName : String),
      hintResult df kName (some "count_rows()") =
        some ⟨if kName == "" then "count_rows" else kName,
          .vInt (_safe_count_rows df), some "from formula_hint"⟩) ∧
    (∀ (df : Df) (k : PlanKPI),
      hintResult df (strStrip k.name) k.formula_hint = none →
      evalPlanKpi df k = heuristicResult df (strStrip k.name) (strStrip k.description)) ∧
    (∀ (df : Df) (kName hs : String),
      (strStrip hs == "") = false →
      listEqCI (strStrip hs).toList "count_rows()".toList = false →
      matchAggForm (strStrip hs).toList = none →
      hintResult df kName (some hs) = none) ∧
    (∀ (df : Df) (kName hs : String) (tok : AggTok) (rawCol : List Char),
      (strStrip hs == "") = false →
      listEqCI (strStrip hs).toList "count_rows()".toList = false →
      matchAggForm (strStrip hs).toList = some (tok, rawCol) →
      dfGet df (String.mk (stripColName rawCol)) = none →
      hintResult df kName (some hs) = none) ∧
    (evalPlanKpi [("amount", ⟨.numeric, [.num 10, .num 20, .num 30]⟩)]
        ⟨"Total", "", some "sum(amount)"⟩ =
      ⟨"Total", .vFloat 60, some "from formula_hint: sum(amount)"⟩) ∧
    (evalPlanKpi [("x", ⟨.numeric, []⟩)] ⟨"N", "", some "count_rows()"⟩ =
      ⟨"N", .vInt 0, some "from formula_hint"⟩) ∧
    (evalPlanKpi [("user_id", ⟨.numeric, [.num 1, .num 1, .num 2, .num 3]⟩)]
        ⟨"U", "", some "count_distinct(user_id)"⟩ =
      ⟨"U", .vInt 3, some "from formula_hint: count_distinct(user_id)"⟩) := by
  refine ⟨?_, ?_, ?_, ?_, ?_, ?_, ?_, ?_, by with_unfolding_all decide,
    by with_unfolding_all decide, by with_unfolding_all decide⟩
  · intro df col a h
    simp [_safe_agg, h]
  · intro df col a h
    cases hg : dfGet df col with
    | none => simp [_safe_agg, hg]
    | some c => simp [_safe_agg, hg, h]
  · intro df col a h1 h2
    obtain ⟨c, hc⟩ := Option.ne_none_iff_exists'.mp h1
    simp [_safe_agg, hc, h2]
  · intro df col c h
    simp [_safe_count_distinct, h]
  · intro df kName
    rfl
  · intro df k h
    show (match hintResult df (strStrip k.name) k.formula_hint with
      | some r => r
      | none => heuristicResult df (strStrip k.name) (strStrip k.description)) =
      heuristicResult df (strStrip k.name) (strStrip k.description)
    rw [h]
  · intro df kName hs hne hncr hm
    show (if (strStrip hs == "") = true then none
      else if listEqCI (strStrip hs).toList "count_rows()".toList = true then
        some (⟨if kName == "" then "count_rows" else kName,
          .vInt (_safe_count_rows df), some "from formula_hint"⟩ : KPIComputed)
      else
        match matchAggForm (strStrip hs).toList with
        | none => none
        | some (tok, rawCol) =>
            let col := String.mk (stripColName rawCol)
            match tok with
            | .cdist =>
                match _safe_count_distinct df col with
                | some v => some ⟨kName, .vInt v, some ("from formula_hint: " ++ strStrip hs)⟩
                | none => none
            | .agg a =>
                match _safe_agg df col a with
                | some v => some ⟨kName, .vFloat v, some ("from formula_hint: " ++ strStrip hs)⟩
                | none => none) = none
    rw [if_neg (by rw [hne]; exact Bool.false_ne_true), if_neg (by rw [hncr]; exact Bool.false_ne_true), hm]
  · intro df kName hs tok rawCol hne hncr hm habs
    simp only [hintResult, hne, Bool.false_eq_true, if_false, hncr, hm]
    match tok with
    | .cdist => simp [_safe_count_distinct, habs]
    | .agg a => simp [_safe_agg, habs]

/-- Witness for C5: each guarded clause instantiated at a concrete input. -/
theorem c5_formula_hint_semantics_witness :
    (_safe_agg [("amount", ⟨.numeric, [.num 10]⟩)] "missing" .sum = none) ∧
    (_safe_agg [("txt", ⟨.obj, [.str "abc", .null]⟩)] "txt" .avg = none) ∧
    (_safe_agg [("amount", ⟨.numeric, [.num 10, .num 20, .num 30]⟩)] "amount" .sum =
      some 60) ∧
    (_safe_count_distinct [("u", ⟨.obj, [.str "a", .str "a", .null]⟩)] "u" = some 1) ∧
    (evalPlanKpi [("amount", ⟨.numeric, [.num 10]⟩)] ⟨"Weird", "", some "median(amount)"⟩ =
      heuristicResult [("amount", ⟨.numeric, [.num 10]⟩)] "Weird" "") ∧
    (hintResult [("amount", ⟨.numeric, [.num 10]⟩)] "Weird" (some "median(amount)") = none) ∧
    (hintResult [("amount", ⟨.numeric, [.num 10]⟩)] "K" (some "sum(other)") = none) :=
  ⟨c5_formula_hint_semantics.1 _ "missing" .sum (by decide),
   c5_formula_hint_semantics.2.1 _ "txt" .avg (by decide),
   (c5_formula_hint_semantics.2.2.1 _ "amount" .sum (by decide) (by decide)).trans
     (by with_unfolding_all decide),
   c5_formula_hint_semantics.2.2.2.1 _ "u" ⟨.obj, [.str "a", .str "a", .null]⟩
     (by decide),
   c5_formula_hint_semantics.2.2.2.2.2.1 _ ⟨"Weird", "", some "median(amount)"⟩
     (by decide),
   c5_formula_hint_semantics.2.2.2.2.2.2.1 _ "Weird" "median(amount)" (by decide)
     (by decide) (by decide),
   c5_formula_hint_semantics.2.2.2.2.2.2.2.1 _ "K" "sum(other)" (.agg .sum) "other".toList
     (by decide) (by decide) (by decide) (by decide)⟩

/-! ### C6/C7: column-type inference lemmas -/

theorem inferPass1_perm (df : Df) :
    ((inferPass1 df).1 ++ (inferPass1 df).2.1 ++ (inferPass1 df).2.2).Perm
      (dfColumns df) := by
  induction df with
  | nil => simp [inferPass1, dfColumns]
  | cons p rest ih =>
      obtain ⟨c, col⟩ := p
      show ((inferPass1 ((c, col) :: rest)).1 ++ (inferPass1 ((c, col) :: rest)).2.1 ++
        (inferPass1 ((c, col) :: rest)).2.2).Perm (c :: dfColumns rest)
      cases hd : col.dtype
      case datetime =>
          have he : inferPass1 ((c, col) :: rest) =
              (c :: (inferPass1 rest).1, (inferPass1 rest).2.1, (inferPass1 rest).2.2) := by
            simp [inferPass1, hd]
          rw [he]
          simpa using ih.cons c
      case numeric =>
          have he : inferPass1 ((c, col) :: rest) =
              ((inferPass1 rest).1, c :: (inferPass1 rest).2.1, (inferPass1 rest).2.2) := by
            simp [inferPass1, hd]
          rw [he]
          have h1 : (inferPass1 rest).1 ++ (c :: (inferPass1 rest).2.1) ++ (inferPass1 rest).2.2
              = (inferPass1 rest).1 ++ (c :: ((inferPass1 rest).2.1 ++ (inferPass1 rest).2.2)) := by
            simp
          rw [h1]
          refine List.Perm.trans List.perm_middle (List.Perm.cons c ?_)
          rw [← List.append_assoc]
          exact ih
      case obj =>
          have he : inferPass1 ((c, col) :: rest) =
              ((inferPass1 rest).1, (inferPass1 rest).2.1, c :: (inferPass1 rest).2.2) := by
            simp [inferPass1, hd]
          rw [he]
          exact List.Perm.trans List.perm_middle (List.Perm.cons c ih)
      case other =>
          have he : inferPass1 ((c, col) :: rest) =
              ((inferPass1 rest).1, (inferPass1 rest).2.1, c :: (inferPass1 rest).2.2) := by
            simp [inferPass1, hd]
          rw [he]
          exact List.Perm.trans List.perm_middle (List.Perm.cons c ih)

theorem inferPass1_mem_time (df : Df) :
    ∀ c col, (c, col) ∈ df → col.dtype = Dtype.datetime → c ∈ (inferPass1 df).1 := by
  induction df with
  | nil => intro c col h; simp at h
  | cons p rest ih =>
      intro c col h hd
      obtain ⟨c', col'⟩ := p
      rcases List.mem_cons.mp h with he | hr
      · cases he
        simp [inferPass1, hd]
      · cases hd' : col'.dtype <;>
          simp only [inferPass1, hd'] <;> simp [ih c col hr hd]

theorem inferPass1_mem_num (df : Df) :
    ∀ c col, (c, col) ∈ df → col.dtype = Dtype.numeric → c ∈ (inferPass1 df).2.1 := by
  induction df with
  | nil => intro c col h; simp at h
  | cons p rest ih =>
      intro c col h hd
      obtain ⟨c', col'⟩ := p
      rcases List.mem_cons.mp h with he | hr
      · cases he
        simp [inferPass1, hd]
      · cases hd' : col'.dtype <;>
          simp only [inferPass1, hd'] <;> simp [ih c col hr hd]

theorem inferPass1_mem_cat (df : Df) :
    ∀ c col, (c, col) ∈ df → col.dtype ≠ Dtype.datetime → col.dtype ≠ Dtype.numeric →
      c ∈ (inferPass1 df).2.2 := by
  induction df with
  | nil => intro c col h; simp at h
  | cons p rest ih =>
      intro c col h hd1 hd2
      obtain ⟨c', col'⟩ := p
      rcases List.mem_cons.mp h with he | hr
      · cases he
        cases hd : col.dtype
        · exact absurd hd hd1
        · exact absurd hd hd2
        · simp [inferPass1, hd]
        · simp [inferPass1, hd]
      · cases hd' : col'.dtype <;>
          simp only [inferPass1, hd'] <;> simp [ih c col hr hd1 hd2]

theorem refinePass_time_extends (df : Df) (p : Cell → Bool) :
    ∀ ws t ca, t <+: (refinePass df p ws (t, ca)).1 := by
  intro ws
  induction ws with
  | nil => intro t ca; exact List.prefix_refl t
  | cons c rest ih =>
      intro t ca
      simp only [refinePass]
      split
      · exact (List.prefix_append t [c]).trans (ih (t ++ [c]) (ca.erase c))
      · exact ih t ca

theorem refinePass_cat_sublist (df : Df) (p : Cell → Bool) :
    ∀ ws t ca, (refinePass df p ws (t, ca)).2.Sublist ca := by
  intro ws
  induction ws with
  | nil => intro t ca; exact List.Sublist.refl ca
  | cons c rest ih =>
      intro t ca
      simp only [refinePass]
      split
      · exact (ih (t ++ [c]) (ca.erase c)).trans (List.erase_sublist c ca)
      · exact ih t ca

theorem refinePass_mem_time (df : Df) (p : Cell → Bool) :
    ∀ ws t ca c, c ∈ ws → refineCond df p c = true →
      c ∈ (refinePass df p ws (t, ca)).1 := by
  intro ws
  induction ws with
  | nil => intro t ca c h; simp at h
  | cons d rest ih =>
      intro t ca c hmem hcond
      rcases List.mem_cons.mp hmem with he | hr
      · subst he
        simp only [refinePass, if_pos hcond]
        exact (refinePass_time_extends df p rest (t ++ [c]) (ca.erase c)).sublist.subset
          (by simp)
      · simp only [refinePass]
        split
        · exact ih (t ++ [d]) (ca.erase d) c hr hcond
        · exact ih t ca c hr hcond

theorem refinePass_notmem_cat (df : Df) (p : Cell → Bool) :
    ∀ ws t ca c, ca.Nodup → c ∈ ws → refineCond df p c = true →
      c ∉ (refinePass df p ws (t, ca)).2 := by
  intro ws
  induction ws with
  | nil => intro t ca c _ h; simp at h
  | cons d rest ih =>
      intro t ca c hnd hmem hcond
      rcases List.mem_cons.mp hmem with he | hr
      · subst he
        simp only [refinePass, if_pos hcond]
        intro hmem'
        have hin : c ∈ ca.erase c :=
          (refinePass_cat_sublist df p rest (t ++ [c]) (ca.erase c)).subset hmem'
        rw [List.Nodup.mem_erase_iff hnd] at hin
        exact hin.1 rfl
      · simp only [refinePass]
        split
        · exact ih (t ++ [d]) (ca.erase d) c (hnd.erase d) hr hcond
        · exact ih t ca c hnd hr hcond

theorem refinePass_perm (df : Df) (p : Cell → Bool) :
    ∀ ws t ca, ws.Nodup → (∀ x ∈ ws, x ∈ ca) →
      ((refinePass df p ws (t, ca)).1 ++ (refinePass df p ws (t, ca)).2).Perm (t ++ ca) := by
  intro ws
  induction ws with
  | nil => intro t ca _ _; exact List.Perm.refl (t ++ ca)
  | cons c rest ih =>
      intro t ca hnd hsub
      rw [List.nodup_cons] at hnd
      simp only [refinePass]
      split
      · rename_i hcond
        have hmemca : c ∈ ca := hsub c (by simp)
        have hsub' : ∀ x ∈ rest, x ∈ ca.erase c := by
          intro x hx
          exact (List.mem_erase_of_ne (fun he => hnd.1 (by rw [← he]; exact hx))).mpr
            (hsub x (by simp [hx]))
        refine (ih (t ++ [c]) (ca.erase c) hnd.2 hsub').trans ?_
        have h1 : (t ++ [c]) ++ ca.erase c = t ++ (c :: ca.erase c) := by simp
        rw [h1]
        exact (List.Perm.append_left t (List.perm_cons_erase hmemca)).symm
      · exact ih t ca hnd.2 (fun x hx => hsub x (by simp [hx]))

/-- The partition facts shared by the C6 and C7 theorems. -/
theorem inferPartitionFacts (p : Cell → Bool) (df : Df)
    (hnd : (dfColumns df).Nodup) (t nu ca : List String)
    (hr : _infer_column_types p df = (t, nu, ca)) :
    (∀ c, c ∈ dfColumns df ↔ (c ∈ t ∨ c ∈ nu ∨ c ∈ ca)) ∧
    (∀ c, c ∈ t → c ∉ nu) ∧ (∀ c, c ∈ t → c ∉ ca) ∧ (∀ c, c ∈ nu → c ∉ ca) := by
  have hdef : _infer_column_types p df =
      ((refinePass df p (inferPass1 df).2.2 ((inferPass1 df).1, (inferPass1 df).2.2)).1,
        (inferPass1 df).2.1,
        (refinePass df p (inferPass1 df).2.2 ((inferPass1 df).1, (inferPass1 df).2.2)).2) := rfl
  rw [hdef] at hr
  have ht : t = (refinePass df p (inferPass1 df).2.2 ((inferPass1 df).1, (inferPass1 df).2.2)).1 :=
    (congrArg Prod.fst hr).symm
  have hnu : nu = (inferPass1 df).2.1 :=
    (congrArg (fun q => q.2.1) hr).symm
  have hca : ca = (refinePass df p (inferPass1 df).2.2 ((inferPass1 df).1, (inferPass1 df).2.2)).2 :=
    (congrArg (fun q => q.2.2) hr).symm
  have hperm1 := inferPass1_perm df
  have hund : ((inferPass1 df).1 ++ (inferPass1 df).2.1 ++ (inferPass1 df).2.2).Nodup :=
    hperm1.nodup_iff.mpr hnd
  have hca0nd : (inferPass1 df).2.2.Nodup := (List.nodup_append.mp hund).2.1
  have hperm2 := refinePass_perm df p (inferPass1 df).2.2 (inferPass1 df).1
    (inferPass1 df).2.2 hca0nd (fun x hx => hx)
  have hP : ((t ++ nu) ++ ca).Perm
      (((inferPass1 df).1 ++ (inferPass1 df).2.1) ++ (inferPass1 df).2.2) := by
    rw [ht, hnu, hca]
    refine List.Perm.trans (List.Perm.append_right _ List.perm_append_comm) ?_
    rw [List.append_assoc]
    refine List.Perm.trans (List.Perm.append_left _ hperm2) ?_
    rw [← List.append_assoc]
    exact List.Perm.append_right _ List.perm_append_comm
  have hresnd : ((t ++ nu) ++ ca).Nodup := hP.nodup_iff.mpr hund
  have hmemiff : ∀ c, c ∈ dfColumns df ↔ (c ∈ t ∨ c ∈ nu ∨ c ∈ ca) := by
    intro c
    rw [← hperm1.mem_iff]
    rw [show ((inferPass1 df).1 ++ (inferPass1 df).2.1 ++ (inferPass1 df).2.2)
        = ((inferPass1 df).1 ++ (inferPass1 df).2.1) ++ (inferPass1 df).2.2 from rfl]
    rw [← hP.mem_iff]
    simp [List.mem_append, or_assoc]
  obtain ⟨hnd1, hndca, hdisj⟩ := List.nodup_append.mp hresnd
  obtain ⟨hndt, hndnu, hdisj2⟩ := List.nodup_append.mp hnd1
  refine ⟨hmemiff, ?_, ?_, ?_⟩
  · intro c hct hcnu
    exact hdisj2 hct hcnu
  · intro c hct hcca
    exact hdisj (List.mem_append.mpr (Or.inl hct)) hcca
  · intro c hcnu hcca
    exact hdisj (List.mem_append.mpr (Or.inr hcnu)) hcca

/-- C6: for every dataframe with distinct column names, the three lists
returned by the column-type inferrer are pairwise disjoint and their union
is exactly the column set, whatever the date-parse oracle does. -/
theorem c6_type_partition (p : Cell → Bool) (df : Df)
    (hnd : (dfColumns df).Nodup) (t nu ca : List String)
    (hr : _infer_column_types p df = (t, nu, ca)) :
    (∀ c, c ∈ dfColumns df ↔ (c ∈ t ∨ c ∈ nu ∨ c ∈ ca)) ∧
    (∀ c, c ∈ t → c ∉ nu) ∧ (∀ c, c ∈ t → c ∉ ca) ∧ (∀ c, c ∈ nu → c ∉ ca) :=
  inferPartitionFacts p df hnd t nu ca hr

/-- Witness for C6 at a concrete three-column frame. -/
theorem c6_type_partition_witness :
    ("a" ∈ dfColumns witDf6 ↔ ("a" ∈ ["a"] ∨ "a" ∈ ["b"] ∨ "a" ∈ ["c"])) ∧
    ("a" ∈ ["a"] → "a" ∉ ["b"]) :=
  ⟨((c6_type_partition (fun _ => false) witDf6 (by decide) ["a"] ["b"] ["c"] (by decide)).1 "a"),
   ((c6_type_partition (fun _ => false) witDf6 (by decide) ["a"] ["b"] ["c"] (by decide)).2.1 "a")⟩

/-- Counterexample to C7 as stated: in this categorical column at least
80% of the values parse as dates (exactly 4 of 5), yet the inferrer keeps
it categorical, because the code requires a ratio strictly greater than
0.8 (`parsed.notna().mean() > 0.8`). -/
theorem c7_counterexample :
    5 * ((cellsOf toyDf7 "d").countP toyDateParse) ≥ 4 * (cellsOf toyDf7 "d").length ∧
    _infer_column_types toyDateParse toyDf7 = ([], [], ["d"]) :=
  ⟨by decide, by decide⟩

/-- C7 (amended): a raw textual (`object`-dtype) column is reclassified
from categorical to time when strictly more than 80% of its values parse
as dates; numeric and datetime columns keep their first-pass class and are
never touched by the refinement — the numeric list is exactly the
first-pass numeric list, the first-pass time list is a prefix of the final
one, and the final categorical list is a sublist of the first-pass one. -/
theorem c7_refinement_amended (p : Cell → Bool) (df : Df)
    (hnd : (dfColumns df).Nodup) (t nu ca : List String)
    (hr : _infer_column_types p df = (t, nu, ca)) :
    (∀ c col, (c, col) ∈ df → col.dtype = Dtype.obj →
      5 * col.cells.countP p > 4 * col.cells.length → c ∈ t ∧ c ∉ ca) ∧
    (∀ c col, (c, col) ∈ df → col.dtype = Dtype.numeric →
      c ∈ nu ∧ c ∉ t ∧ c ∉ ca) ∧
    (∀ c col, (c, col) ∈ df → col.dtype = Dtype.datetime → c ∈ t) ∧
    nu = (inferPass1 df).2.1 ∧
    (inferPass1 df).1 <+: t ∧
    ca.Sublist (inferPass1 df).2.2 := by
  obtain ⟨hmem, hdtn, hdtc, hdnc⟩ := inferPartitionFacts p df hnd t nu ca hr
  have hdef : _infer_column_types p df =
      ((refinePass df p (inferPass1 df).2.2 ((inferPass1 df).1, (inferPass1 df).2.2)).1,
        (inferPass1 df).2.1,
        (refinePass df p (inferPass1 df).2.2 ((inferPass1 df).1, (inferPass1 df).2.2)).2) := rfl
  rw [hdef] at hr
  have ht : t = (refinePass df p (inferPass1 df).2.2 ((inferPass1 df).1, (inferPass1 df).2.2)).1 :=
    (congrArg Prod.fst hr).symm
  have hnu : nu = (inferPass1 df).2.1 :=
    (congrArg (fun q => q.2.1) hr).symm
  have hca : ca = (refinePass df p (inferPass1 df).2.2 ((inferPass1 df).1, (inferPass1 df).2.2)).2 :=
    (congrArg (fun q => q.2.2) hr).symm
  have hca0nd : (inferPass1 df).2.2.Nodup := by
    have hund : ((inferPass1 df).1 ++ (inferPass1 df).2.1 ++ (inferPass1 df).2.2).Nodup :=
      (inferPass1_perm df).nodup_iff.mpr hnd
    exact (List.nodup_append.mp hund).2.1
  refine ⟨?_, ?_, ?_, hnu, ?_, ?_⟩
  · intro c col hmem' hobj hratio
    have hlook : dfGet df c = some col := lookup_of_mem_nodup df c col hmem' hnd
    have hcond : refineCond df p c = true := by
      unfold refineCond
      rw [hlook]
      simp [hobj, hratio]
    have hca0 : c ∈ (inferPass1 df).2.2 :=
      inferPass1_mem_cat df c col hmem' (by rw [hobj]; exact fun h => Dtype.noConfusion h)
        (by rw [hobj]; exact fun h => Dtype.noConfusion h)
    constructor
    · rw [ht]
      exact refinePass_mem_time df p (inferPass1 df).2.2 (inferPass1 df).1
        (inferPass1 df).2.2 c hca0 hcond
    · rw [hca]
      exact refinePass_notmem_cat df p (inferPass1 df).2.2 (inferPass1 df).1
        (inferPass1 df).2.2 c hca0nd hca0 hcond
  · intro c col hmem' hnum
    have hin : c ∈ nu := by
      rw [hnu]
      exact inferPass1_mem_num df c col hmem' hnum
    exact ⟨hin, fun hct => hdtn c hct hin, hdnc c hin⟩
  · intro c col hmem' hdt
    have h0 : c ∈ (inferPass1 df).1 := inferPass1_mem_time df c col hmem' hdt
    rw [ht]
    exact (refinePass_time_extends df p (inferPass1 df).2.2 (inferPass1 df).1
      (inferPass1 df).2.2).sublist.subset h0
  · rw [ht]
    exact refinePass_time_extends df p (inferPass1 df).2.2 (inferPass1 df).1
      (inferPass1 df).2.2
  · rw [hca]
    exact refinePass_cat_sublist df p (inferPass1 df).2.2 (inferPass1 df).1
      (inferPass1 df).2.2

/-- Witness for C7 (amended): a column with 5 of 6 parseable values is
moved to time; numeric and datetime columns keep their class. -/
theorem c7_refinement_amended_witness :
    ("d6" ∈ ["tm", "d6"] ∧ "d6" ∉ ([] : List String)) ∧
    ("n" ∈ ["n"] ∧ "n" ∉ ["tm", "d6"] ∧ "n" ∉ ([] : List String)) ∧
    ("tm" ∈ ["tm", "d6"]) :=
  ⟨(c7_refinement_amended toyDateParse witDf7
      (by decide) ["tm", "d6"] ["n"] [] (by decide)).1 "d6" witCol7 (by decide)
      (by decide) (by decide),
   (c7_refinement_amended toyDateParse witDf7
      (by decide) ["tm", "d6"] ["n"] [] (by decide)).2.1 "n" ⟨Dtype.numeric, []⟩
      (by decide) (by decide),
   (c7_refinement_amended toyDateParse witDf7
      (by decide) ["tm", "d6"] ["n"] [] (by decide)).2.2.1 "tm" ⟨Dtype.datetime, []⟩
      (by decide) (by decide)⟩

/-! ### C3/C4: the planner-driven merge -/

/-- Because the merged `KPIValue`'s name is built by subscripting a string
with a string, the append loop raises on its first element and never
extends the KPI list. -/
theorem appendComputed_eq (kpis : List KPIValue) (lst : List KPIComputed) :
    appendComputed kpis lst =
      (kpis, match lst with
        | [] => none
        | _ :: _ => some "string indices must be integers") := by
  cases lst <;> rfl

/-- Replacing the first report found under its own name is a no-op. -/
theorem replaceFirst_self (ds : String) :
    ∀ (reports : List KPIReport) (r : KPIReport),
      reports.find? (·.dataset_name == ds) = some r →
      replaceFirst reports ds r = reports := by
  intro reports
  induction reports with
  | nil => intro r h; simp [List.find?] at h
  | cons r0 rs ih =>
      intro r h
      cases hp : (r0.dataset_name == ds) with
      | true =>
          simp only [List.find?, hp] at h
          injection h with h
          simp only [replaceFirst, hp, if_true]
          rw [h]
      | false =>
          simp only [List.find?, hp] at h
          simp only [replaceFirst, hp, Bool.false_eq_true, if_false]
          rw [ih r h]

/-- The merge loop leaves the reports untouched: every attempted append
raises before mutating, so the `try` body never changes a report. -/
theorem tryMergeEntries_fst :
    ∀ (entries : List (String × List KPIComputed)) (reports : List KPIReport),
      (tryMergeEntries entries reports).1 = reports := by
  intro entries
  induction entries with
  | nil => intro reports; rfl
  | cons p rest ih =>
      intro reports
      obtain ⟨ds, lst⟩ := p
      show ((match reports.find? (·.dataset_name == ds) with
        | none => tryMergeEntries rest reports
        | some r =>
            let res := appendComputed r.kpis lst
            let reports' := replaceFirst reports ds { r with kpis := res.1 }
            match res.2 with
            | some e => (reports', some e)
            | none => tryMergeEntries rest reports' :
          List KPIReport × Option String)).1 = reports
      cases hf : reports.find? (·.dataset_name == ds) with
      | none => exact ih reports
      | some r =>
          cases lst with
          | nil =>
              show (tryMergeEntries rest (replaceFirst reports ds r)).1 = reports
              rw [replaceFirst_self ds reports r hf]
              exact ih reports
          | cons kc rest' =>
              show replaceFirst reports ds r = reports
              exact replaceFirst_self ds reports r hf

/-- Mapping a function pointwise gives the pointwise relation. -/
theorem forall2_map {α : Type} (f : α → α) (pred : α → α → Prop)
    (h : ∀ x, pred x (f x)) : ∀ l : List α, List.Forall₂ pred l (l.map f) := by
  intro l
  induction l with
  | nil => exact List.Forall₂.nil
  | cons x xs ih => exact List.Forall₂.cons (h x) ih

/-- C4: when the planner-driven KPI merge raises at the plan level, the run
does not fail — the bundle is returned complete, every report keeps its
generic KPIs, highlights and dataset name, and every report carries one
appended risk note naming the failure. -/
theorem c4_plan_failure_resilience (runQuery : String → Except String Df)
    (dtVal : Cell → Option ℤ) (m : MemoryStore) (artifacts : List SQLArtifact)
    (plan : Plan) (pre : String) (mp : Nat) (sums : List DatasetSummary)
    (reports : List KPIReport) (previews fulls : List (String × Df))
    (m' : MemoryStore)
    (hloop : execLoop runQuery dtVal pre mp artifacts m =
      .ok (sums, reports, previews, fulls, m'))
    (e : String)
    (hfail : (tryMergeEntries (compute_kpis_from_plan plan fulls) reports).2 = some e) :
    execute_and_cache_artifacts runQuery dtVal m artifacts (some plan) pre mp =
      .ok (⟨sums, reports.map (fun r =>
          { r with risks := r.risks ++ ["Planner-driven KPI computation failed: " ++ e] })⟩,
        previews, m') ∧
    List.Forall₂ (fun r r' => r'.dataset_name = r.dataset_name ∧ r'.kpis = r.kpis ∧
        r'.highlights = r.highlights ∧
        r'.risks = r.risks ++ ["Planner-driven KPI computation failed: " ++ e])
      reports
      (reports.map (fun r =>
        { r with risks := r.risks ++ ["Planner-driven KPI computation failed: " ++ e] })) := by
  constructor
  · have hmerge : mergePlanKpis plan reports fulls =
        reports.map (fun r =>
          { r with risks := r.risks ++ ["Planner-driven KPI computation failed: " ++ e] }) := by
      simp only [mergePlanKpis]
      rw [hfail, tryMergeEntries_fst]
    have hex : execute_and_cache_artifacts runQuery dtVal m artifacts (some plan) pre mp =
        (execLoop runQuery dtVal pre mp artifacts m).bind (fun res =>
          .ok (⟨res.1, mergePlanKpis plan res.2.1 res.2.2.2.1⟩, res.2.2.1, res.2.2.2.2)) :=
      rfl
    rw [hex, hloop]
    simp only [Except.bind]
    rw [hmerge]
  · exact forall2_map _ _ (fun r => ⟨rfl, rfl, rfl, rfl⟩) reports

/-- Witness for C4 at a concrete one-artifact run whose plan merge raises. -/
theorem c4_plan_failure_resilience_witness :
    execute_and_cache_artifacts okEmptyQuery noDt emptyStore [miniArtifact]
        (some miniPlan) "ds" 50 =
      .ok (⟨[⟨"d", "k0", "cache/parquet/k0.parquet", 0, 0, [], [], [], []⟩],
        [⟨"d", [⟨"rows", .vInt 0, none⟩, ⟨"columns", .vInt 0, none⟩], [],
          ["Planner-driven KPI computation failed: string indices must be integers"]⟩]⟩,
        [("d", [])],
        ⟨"cache", [("k0", "cache/parquet/k0.parquet")], [("cache/parquet/k0.parquet", [])]⟩) :=
  (c4_plan_failure_resilience okEmptyQuery noDt emptyStore [miniArtifact] miniPlan
    "ds" 50
    [⟨"d", "k0", "cache/parquet/k0.parquet", 0, 0, [], [], [], []⟩]
    [⟨"d", [⟨"rows", .vInt 0, none⟩, ⟨"columns", .vInt 0, none⟩], [], []⟩]
    [("d", [])] [("d", [])]
    ⟨"cache", [("k0", "cache/parquet/k0.parquet")], [("cache/parquet/k0.parquet", [])]⟩
    (by decide) "string indices must be integers" (by decide)).1

/-- C3 (code bug): on a run where the plan-driven KPI for `sales` computes
successfully (`Total Sales = 60` via `sum(amount)`), the merge loop still
fails — `name=kc.name [kc.name]` subscripts a string with a string — so no
plan-driven KPI is appended after the generic KPIs; instead every report
gets the plan-failure risk note. -/
theorem c3_merge_type_error :
    compute_kpis_from_plan salesPlan [("sales", dfSales)] =
      [("sales", [⟨"Total Sales", .vFloat 60, some "from formula_hint: sum(amount)"⟩])] ∧
    execute_and_cache_artifacts salesEngine noDt emptyStore [salesArtifact]
        (some salesPlan) "ds" 50 =
      .ok (⟨[⟨"sales", "k1", "cache/parquet/k1.parquet", 3, 1, ["amount"], [],
          ["amount"], []⟩],
        [⟨"sales",
          [⟨"rows", .vInt 3, none⟩, ⟨"columns", .vInt 1, none⟩,
           ⟨"amount__sum", .vFloat 60, none⟩, ⟨"amount__avg", .vFloat 20, none⟩,
           ⟨"amount__p95", .vFloat 29, none⟩],
          ["Detected numeric columns: amount"],
          ["Planner-driven KPI computation failed: string indices must be integers"]⟩]⟩,
        [("sales", dfSales)],
        ⟨"cache", [("k1", "cache/parquet/k1.parquet")],
          [("cache/parquet/k1.parquet", dfSales)]⟩) :=
  ⟨by with_unfolding_all decide, by with_unfolding_all decide⟩

/-! ### C2: per-artifact failures abort the whole run -/

theorem exceptBindOk {α β : Type} (a : α) (f : α → Except String β) :
    ((Except.ok a : Except String α) >>= f) = f a := rfl

theorem exceptBindErr {α β : Type} (e : String) (f : α → Except String β) :
    ((Except.error e : Except String α) >>= f) = .error e := rfl

/-- The planner-driven merge never changes a report's dataset name. -/
theorem mergePlanKpis_names (plan : Plan) (reports : List KPIReport)
    (datasets : List (String × Df)) :
    (mergePlanKpis plan reports datasets).map KPIReport.dataset_name =
      reports.map KPIReport.dataset_name := by
  simp only [mergePlanKpis]
  cases h2 : (tryMergeEntries (compute_kpis_from_plan plan datasets) reports).2 with
  | none => rw [tryMergeEntries_fst]
  | some e =>
      rw [tryMergeEntries_fst]
      simp

/-- When every artifact passes the gate and its query, the loop returns one
summary and one report per artifact, in order. -/
theorem execLoop_ok_of_artOk (runQuery : String → Except String Df)
    (dtVal : Cell → Option ℤ) (pre : String) (mp : Nat) :
    ∀ (artifacts : List SQLArtifact) (m : MemoryStore),
      (∀ a ∈ artifacts, artOk runQuery a) →
      ∃ sums reports previews fulls m',
        execLoop runQuery dtVal pre mp artifacts m =
          .ok (sums, reports, previews, fulls, m') ∧
        sums.map DatasetSummary.dataset_name = artifacts.map SQLArtifact.dataset_name ∧
        reports.map KPIReport.dataset_name = artifacts.map SQLArtifact.dataset_name := by
  intro artifacts
  induction artifacts with
  | nil => exact fun m _ => ⟨[], [], [], [], m, rfl, rfl, rfl⟩
  | cons a rest ih =>
      intro m hall
      obtain ⟨hgate, df, hq⟩ := hall a (by simp)
      have he : enforce_select_only (strStrip a.sql).toList = .ok () := by
        unfold enforce_select_only
        rw [hgate]
        rfl
      obtain ⟨sums', reports', previews', fulls', m'', hrest, hn1, hn2⟩ :=
        ih (cache_df m (a.cache_key.getD (_mk_cache_key pre (strStrip a.sql))) df).1
          (fun x hx => hall x (by simp [hx]))
      have hcons : ∃ S R P F,
          execLoop runQuery dtVal pre mp (a :: rest) m =
            .ok (S :: sums', R :: reports', P :: previews', F :: fulls', m'') ∧
          S.dataset_name = a.dataset_name ∧ R.dataset_name = a.dataset_name := by
        simp only [execLoop]
        rw [he, exceptBindOk, exceptBindOk, hq, exceptBindOk, hrest, exceptBindOk]
        exact ⟨_, _, _, _, rfl, rfl, rfl⟩
      obtain ⟨S, R, P, F, hstep, hS, hR⟩ := hcons
      exact ⟨S :: sums', R :: reports', P :: previews', F :: fulls', m'', hstep,
        by simp [hS, hn1], by simp [hR, hn2]⟩

/-- If every artifact before `bad` succeeds and `bad` is rejected by the
gate, the loop propagates the gate's `ValueError`. -/
theorem execLoop_error_of_gate (runQuery : String → Except String Df)
    (dtVal : Cell → Option ℤ) (pre : String) (mp : Nat) (bad : SQLArtifact)
    (rest : List SQLArtifact)
    (hbad : is_select_only (strStrip bad.sql).toList = false) :
    ∀ (good : List SQLArtifact) (m : MemoryStore),
      (∀ a ∈ good, artOk runQuery a) →
      execLoop runQuery dtVal pre mp (good ++ bad :: rest) m =
        .error "BLOCKED non-SELECT SQL. Only read-only SELECT queries are allowed." := by
  intro good
  induction good with
  | nil =>
      intro m _
      have he : enforce_select_only (strStrip bad.sql).toList =
          .error "BLOCKED non-SELECT SQL. Only read-only SELECT queries are allowed." := by
        unfold enforce_select_only
        rw [hbad]
        rfl
      rw [List.nil_append]
      simp only [execLoop]
      rw [he, exceptBindErr]
  | cons a good' ih =>
      intro m hall
      obtain ⟨hgate, df, hq⟩ := hall a (by simp)
      have he : enforce_select_only (strStrip a.sql).toList = .ok () := by
        unfold enforce_select_only
        rw [hgate]
        rfl
      rw [List.cons_append]
      simp only [execLoop]
      rw [he, exceptBindOk, exceptBindOk, hq, exceptBindOk,
        ih _ (fun x hx => hall x (by simp [hx])), exceptBindErr]

/-- If every artifact before `bad` succeeds, `bad` passes the gate but its
query fails, the loop propagates the query error. -/
theorem execLoop_error_of_query (runQuery : String → Except String Df)
    (dtVal : Cell → Option ℤ) (pre : String) (mp : Nat) (bad : SQLArtifact)
    (rest : List SQLArtifact) (msg : String)
    (hbadgate : is_select_only (strStrip bad.sql).toList = true)
    (hbadq : runQuery (String.mk (rstripSemi (stripWS (strStrip bad.sql).toList))) =
      .error msg) :
    ∀ (good : List SQLArtifact) (m : MemoryStore),
      (∀ a ∈ good, artOk runQuery a) →
      execLoop runQuery dtVal pre mp (good ++ bad :: rest) m = .error msg := by
  intro good
  induction good with
  | nil =>
      intro m _
      have he : enforce_select_only (strStrip bad.sql).toList = .ok () := by
        unfold enforce_select_only
        rw [hbadgate]
        rfl
      rw [List.nil_append]
      simp only [execLoop]
      rw [he, exceptBindOk, exceptBindOk, hbadq, exceptBindErr]
  | cons a good' ih =>
      intro m hall
      obtain ⟨hgate, df, hq⟩ := hall a (by simp)
      have he : enforce_select_only (strStrip a.sql).toList = .ok () := by
        unfold enforce_select_only
        rw [hgate]
        rfl
      rw [List.cons_append]
      simp only [execLoop]
      rw [he, exceptBindOk, exceptBindOk, hq, exceptBindOk,
        ih _ (fun x hx => hall x (by simp [hx])), exceptBindErr]

/-- Counterexample to C2 as stated: a gate rejection does not skip only
that artifact — the whole run raises and no bundle is returned, although
the sibling artifact on its own produces a complete bundle. -/
theorem c2_counterexample :
    execute_and_cache_artifacts salesEngine noDt emptyStore
        [usersArtifact, salesArtifact] none "ds" 50 =
      .error "BLOCKED non-SELECT SQL. Only read-only SELECT queries are allowed." ∧
    execute_and_cache_artifacts salesEngine noDt emptyStore [salesArtifact] none "ds" 50 =
      .ok (⟨[⟨"sales", "k1", "cache/parquet/k1.parquet", 3, 1, ["amount"], [],
          ["amount"], []⟩],
        [⟨"sales",
          [⟨"rows", .vInt 3, none⟩, ⟨"columns", .vInt 1, none⟩,
           ⟨"amount__sum", .vFloat 60, none⟩, ⟨"amount__avg", .vFloat 20, none⟩,
           ⟨"amount__p95", .vFloat 29, none⟩],
          ["Detected numeric columns: amount"], []⟩]⟩,
        [("sales", dfSales)],
        ⟨"cache", [("k1", "cache/parquet/k1.parquet")],
          [("cache/parquet/k1.parquet", dfSales)]⟩) :=
  ⟨by with_unfolding_all decide, by with_unfolding_all decide⟩

/-- C2 (amended): a fatal per-artifact failure — gate rejection or query
error — aborts the whole run: `execute_and_cache_artifacts` propagates the
exception and returns no bundle, so sibling artifacts are not
skipped-and-continued; only when every artifact passes the gate and its
query does the call return a bundle with exactly one DatasetSummary and
one KPIReport per artifact, in order. -/
theorem c2_run_abort_amended :
    (∀ (runQuery : String → Except String Df) (dtVal : Cell → Option ℤ)
       (m : MemoryStore) (plan : Option Plan) (pre : String) (mp : Nat)
       (good : List SQLArtifact) (bad : SQLArtifact) (rest : List SQLArtifact),
       (∀ a ∈ good, artOk runQuery a) →
       is_select_only (strStrip bad.sql).toList = false →
       execute_and_cache_artifacts runQuery dtVal m (good ++ bad :: rest) plan pre mp =
         .error "BLOCKED non-SELECT SQL. Only read-only SELECT queries are allowed.") ∧
    (∀ (runQuery : String → Except String Df) (dtVal : Cell → Option ℤ)
       (m : MemoryStore) (plan : Option Plan) (pre : String) (mp : Nat)
       (good : List SQLArtifact) (bad : SQLArtifact) (rest : List SQLArtifact)
       (msg : String),
       (∀ a ∈ good, artOk runQuery a) →
       is_select_only (strStrip bad.sql).toList = true →
       runQuery (String.mk (rstripSemi (stripWS (strStrip bad.sql).toList))) = .error msg →
       execute_and_cache_artifacts runQuery dtVal m (good ++ bad :: rest) plan pre mp =
         .error msg) ∧
    (∀ (runQuery : String → Except String Df) (dtVal : Cell → Option ℤ)
       (m : MemoryStore) (plan : Option Plan) (pre : String) (mp : Nat)
       (artifacts : List SQLArtifact),
       (∀ a ∈ artifacts, artOk runQuery a) →
       ∃ bundle previews m',
         execute_and_cache_artifacts runQuery dtVal m artifacts plan pre mp =
           .ok (bundle, previews, m') ∧
         bundle.datasets.map DatasetSummary.dataset_name =
           artifacts.map SQLArtifact.dataset_name ∧
         bundle.reports.map KPIReport.dataset_name =
           artifacts.map SQLArtifact.dataset_name) := by
  have hex : ∀ runQuery dtVal m artifacts plan pre mp,
      execute_and_cache_artifacts runQuery dtVal m artifacts plan pre mp =
        (execLoop runQuery dtVal pre mp artifacts m).bind (fun res =>
          .ok (⟨res.1, match plan with
            | none => res.2.1
            | some p => mergePlanKpis p res.2.1 res.2.2.2.1⟩,
            res.2.2.1, res.2.2.2.2)) := fun _ _ _ _ _ _ _ => rfl
  refine ⟨?_, ?_, ?_⟩
  · intro runQuery dtVal m plan pre mp good bad rest hall hbad
    rw [hex, execLoop_error_of_gate runQuery dtVal pre mp bad rest hbad good m hall]
    rfl
  · intro runQuery dtVal m plan pre mp good bad rest msg hall hbadgate hbadq
    rw [hex, execLoop_error_of_query runQuery dtVal pre mp bad rest msg hbadgate hbadq
      good m hall]
    rfl
  · intro runQuery dtVal m plan pre mp artifacts hall
    obtain ⟨sums, reports, previews, fulls, m', hloop, hn1, hn2⟩ :=
      execLoop_ok_of_artOk runQuery dtVal pre mp artifacts m hall
    refine ⟨⟨sums, match plan with
      | none => reports
      | some p => mergePlanKpis p reports fulls⟩, previews, m', ?_, hn1, ?_⟩
    · rw [hex, hloop]
      rfl
    · cases plan with
      | none => exact hn2
      | some p => rw [mergePlanKpis_names]; exact hn2

/-- Witness for C2 (amended): concrete instances of all three clauses. -/
theorem c2_run_abort_amended_witness :
    execute_and_cache_artifacts salesEngine noDt emptyStore
        [salesArtifact, usersArtifact] none "ds" 50 =
      .error "BLOCKED non-SELECT SQL. Only read-only SELECT queries are allowed." ∧
    execute_and_cache_artifacts salesEngine noDt emptyStore
        [missingArtifact] none "ds" 50 = .error "no such table" ∧
    (∃ bundle previews m',
      execute_and_cache_artifacts salesEngine noDt emptyStore [salesArtifact]
          none "ds" 50 = .ok (bundle, previews, m') ∧
      bundle.datasets.map DatasetSummary.dataset_name = ["sales"] ∧
      bundle.reports.map KPIReport.dataset_name = ["sales"]) :=
  ⟨c2_run_abort_amended.1 salesEngine noDt emptyStore none "ds" 50
      [salesArtifact] usersArtifact []
      (by
        intro a ha
        rw [List.mem_singleton] at ha
        subst ha
        exact ⟨by decide, dfSales, by decide⟩)
      (by decide),
   c2_run_abort_amended.2.1 salesEngine noDt emptyStore none "ds" 50
      [] missingArtifact [] "no such table"
      (by intro a ha; simp at ha) (by decide) (by decide),
   c2_run_abort_amended.2.2 salesEngine noDt emptyStore none "ds" 50 [salesArtifact]
      (by
        intro a ha
        rw [List.mem_singleton] at ha
        subst ha
        exact ⟨by decide, dfSales, by decide⟩)⟩

end Dashboard
